import Mathlib

/-!
# Universal Converter — verification of the spec claims against the source

Shallow embedding of the relevant parts of the Universal-Converter browser
extension (`utils/unit-converter.js`, `utils/currency-converter.js`,
`data/conversion-data.js`, and the newer `CurrencyRateService` from the
background service worker).

Modelling conventions:
* JS numbers are modelled as `ℚ`; the decimal literals of the source are exact
  rationals.  (JS `NaN` is not representable; the single spot where the source
  produces it — the `gal → floz` hop reads the missing key `floz` of the
  volume table — is marked below and no theorem depends on that branch.)
* JS strings are Lean `String`s; `toLowerCase` is modelled on ASCII (unit
  spellings only contain ASCII letters plus symbols untouched by lowercasing).
* Object property lookup is `look` on association lists, preserving the
  source's insertion order.
* The `getUnitType` fallthrough that consults the live currency converter is
  omitted (it needs the browser page context; none of the claims involve it),
  matching the Node test configuration where `window.UnitConverter.currencyConverter`
  is absent.
* The async rate service is modelled by explicit state passing; the
  promise-level deduplication of `getCurrencyRate` is modelled as a step
  relation at the granularity of its suspension points.
-/

set_option maxRecDepth 4000000
set_option maxHeartbeats 3200000

namespace UC

/-- JS `String.prototype.toLowerCase` restricted to ASCII (sufficient for all
unit spellings appearing in the registry). -/
def jsToLower (s : String) : String := String.mk (s.data.map Char.toLower)

mutual
/-- JS `replace(/\s+/g, ' ')`: collapse every whitespace run to one space. -/
def collapseWs : List Char → List Char
  | [] => []
  | c :: rest => if c.isWhitespace then ' ' :: collapseAfterWs rest else c :: collapseWs rest

/-- Helper of `collapseWs`: inside a whitespace run. -/
def collapseAfterWs : List Char → List Char
  | [] => []
  | c :: rest => if c.isWhitespace then collapseAfterWs rest else c :: collapseWs rest
end

/-- JS `String.prototype.trim` (on char lists). -/
def trimWs (l : List Char) : List Char :=
  ((l.dropWhile Char.isWhitespace).reverse.dropWhile Char.isWhitespace).reverse

/-- `unit.toLowerCase().replace(/\s+/g, ' ').trim()` — the cleaning step of
`UnitConverter.normalizeUnit`. -/
def cleanUnit (s : String) : String :=
  String.mk (trimWs (collapseWs ((jsToLower s).data)))

/-- JS object property lookup on an association list (first binding wins;
objects have unique keys so order within one table is immaterial). -/
def look {α : Type} : List (String × α) → String → Option α
  | [], _ => none
  | (k, v) :: rest, u => if u = k then some v else look rest u

/-- `data/conversion-data.js` — `UNIT_ALIASES` (complete). -/
def UNIT_ALIASES : List (String × String) := [
  ("inch", "in"), ("inches", "in"),
  ("foot", "ft"), ("feet", "ft"),
  ("yard", "yd"), ("yards", "yd"),
  ("mile", "mi"), ("miles", "mi"),
  ("meter", "m"), ("meters", "m"),
  ("centimeter", "cm"), ("centimeters", "cm"),
  ("millimeter", "mm"), ("millimeters", "mm"),
  ("micrometer", "um"), ("micrometers", "um"), ("micron", "um"), ("microns", "um"),
  ("nanometer", "nm"), ("nanometers", "nm"),
  ("kilometer", "km"), ("kilometers", "km"),
  ("kilogram", "kg"), ("kilograms", "kg"),
  ("gram", "g"), ("grams", "g"),
  ("milligram", "mg"), ("milligrams", "mg"),
  ("pound", "lb"), ("pounds", "lb"), ("lbs", "lb"),
  ("ounce", "oz"), ("ounces", "oz"),
  ("tonne", "t"), ("tonnes", "t"),
  ("celsius", "c"), ("fahrenheit", "f"), ("kelvin", "k"),
  ("degrees celsius", "c"), ("degrees fahrenheit", "f"),
  ("degree celsius", "c"), ("degree fahrenheit", "f"),
  ("liter", "l"), ("liters", "l"),
  ("milliliter", "ml"), ("milliliters", "ml"),
  ("gallon", "gal"), ("gallons", "gal"),
  ("quart", "qt"), ("quarts", "qt"),
  ("pint", "pt"), ("pints", "pt"),
  ("cup", "cup"), ("cups", "cup"),
  ("fl oz", "fl_oz"), ("fluid ounce", "fl_oz"), ("fluid ounces", "fl_oz"),
  ("tablespoon", "tbsp"), ("tablespoons", "tbsp"),
  ("teaspoon", "tsp"), ("teaspoons", "tsp"),
  ("square meter", "m2"), ("square meters", "m2"),
  ("square centimeter", "cm2"), ("square centimeters", "cm2"),
  ("square millimeter", "mm2"), ("square millimeters", "mm2"),
  ("square kilometer", "km2"), ("square kilometers", "km2"),
  ("square foot", "ft2"), ("square feet", "ft2"),
  ("square inch", "in2"), ("square inches", "in2"),
  ("square yard", "yd2"), ("square yards", "yd2"),
  ("square mile", "mi2"), ("square miles", "mi2"),
  ("meters squared", "m2"), ("meter squared", "m2"),
  ("feet squared", "ft2"), ("foot squared", "ft2"),
  ("inches squared", "in2"), ("inch squared", "in2"),
  ("yards squared", "yd2"), ("yard squared", "yd2"),
  ("miles squared", "mi2"), ("mile squared", "mi2"),
  ("centimeters squared", "cm2"), ("centimeter squared", "cm2"),
  ("millimeters squared", "mm2"), ("millimeter squared", "mm2"),
  ("kilometers squared", "km2"), ("kilometer squared", "km2"),
  ("acre", "acre"), ("acres", "acre"),
  ("m²", "m2"), ("cm²", "cm2"), ("mm²", "mm2"), ("km²", "km2"),
  ("ft²", "ft2"), ("in²", "in2"), ("yd²", "yd2"), ("mi²", "mi2"),
  ("m/s", "ms"), ("ms", "ms"), ("meters per second", "ms"), ("meter per second", "ms"),
  ("cm/s", "cms"), ("cms", "cms"), ("centimeters per second", "cms"), ("centimeter per second", "cms"),
  ("km/s", "kms"), ("kms", "kms"), ("kilometers per second", "kms"), ("kilometer per second", "kms"),
  ("km/h", "kmh"), ("kmh", "kmh"), ("km/hr", "kmh"), ("kilometers per hour", "kmh"), ("kilometer per hour", "kmh"),
  ("miles per hour", "mph"), ("mile per hour", "mph"), ("mi/h", "mph"), ("mph", "mph"),
  ("mi/s", "mis"), ("mis", "mis"), ("miles per second", "mis"), ("mile per second", "mis"),
  ("ft/s", "fps"), ("fps", "fps"), ("feet per second", "fps"), ("foot per second", "fps"),
  ("knot", "kn"), ("knots", "kn"), ("kn", "kn"), ("nautical miles per hour", "kn"), ("nautical mile per hour", "kn"),
  ("m/s²", "ms2"), ("m/s2", "ms2"), ("ms2", "ms2"), ("meters per second squared", "ms2"), ("meter per second squared", "ms2"),
  ("cm/s²", "cms2"), ("cm/s2", "cms2"), ("cms2", "cms2"), ("centimeters per second squared", "cms2"), ("centimeter per second squared", "cms2"),
  ("km/s²", "kms2"), ("km/s2", "kms2"), ("kms2", "kms2"), ("kilometers per second squared", "kms2"), ("kilometer per second squared", "kms2"),
  ("ft/s²", "fts2"), ("ft/s2", "fts2"), ("fts2", "fts2"), ("feet per second squared", "fts2"), ("foot per second squared", "fts2"),
  ("in/s²", "ins2"), ("in/s2", "ins2"), ("ins2", "ins2"), ("inches per second squared", "ins2"), ("inch per second squared", "ins2"),
  ("g-force", "gforce"), ("gee", "gforce"), ("gforce", "gforce"),
  ("l/min", "lmin"), ("L/min", "lmin"), ("lmin", "lmin"), ("liters per minute", "lmin"), ("liter per minute", "lmin"), ("lpm", "lmin"),
  ("ml/min", "mlmin"), ("mL/min", "mlmin"), ("mlmin", "mlmin"), ("milliliters per minute", "mlmin"), ("milliliter per minute", "mlmin"),
  ("ml/s", "mls"), ("mL/s", "mls"), ("mls", "mls"), ("milliliters per second", "mls"), ("milliliter per second", "mls"),
  ("l/s", "ls"), ("L/s", "ls"), ("ls", "ls"), ("liters per second", "ls"), ("liter per second", "ls"),
  ("l/h", "lh"), ("L/h", "lh"), ("lh", "lh"), ("liters per hour", "lh"), ("liter per hour", "lh"),
  ("gal/min", "galmin"), ("galmin", "galmin"), ("gallons per minute", "galmin"), ("gallon per minute", "galmin"), ("gpm", "galmin"),
  ("gal/s", "gals"), ("gals", "gals"), ("gallons per second", "gals"), ("gallon per second", "gals"),
  ("gal/h", "galh"), ("galh", "galh"), ("gallons per hour", "galh"), ("gallon per hour", "galh"),
  ("m³/s", "m3s"), ("m3/s", "m3s"), ("m3s", "m3s"), ("cubic meters per second", "m3s"), ("cubic meter per second", "m3s"),
  ("m³/min", "m3min"), ("m3/min", "m3min"), ("m3min", "m3min"), ("cubic meters per minute", "m3min"), ("cubic meter per minute", "m3min"),
  ("m³/h", "m3h"), ("m3/h", "m3h"), ("m3h", "m3h"), ("cubic meters per hour", "m3h"), ("cubic meter per hour", "m3h"),
  ("cfm", "cfm"), ("cubic feet per minute", "cfm"), ("cubic foot per minute", "cfm"),
  ("cfs", "cfs"), ("cubic feet per second", "cfs"), ("cubic foot per second", "cfs"),
  ("cfh", "cfh"), ("cubic feet per hour", "cfh"), ("cubic foot per hour", "cfh"),
  ("n.m", "Nm"), ("n·m", "Nm"), ("n⋅m", "Nm"), ("n-m", "Nm"), ("Nm", "Nm"), ("newton meter", "Nm"), ("newton meters", "Nm"), ("newton-meters", "Nm"), ("newton-meter", "Nm"),
  ("lb.ft", "lbft"), ("lb·ft", "lbft"), ("lb⋅ft", "lbft"), ("lb-ft", "lbft"), ("pound foot", "lbft"), ("pound feet", "lbft"), ("pound-feet", "lbft"), ("pound-foot", "lbft"),
  ("foot pound", "lbft"), ("foot pounds", "lbft"), ("foot-pounds", "lbft"), ("foot-pound", "lbft"), ("ft-lbs", "lbft"), ("ft⋅lbs", "lbft"),
  ("lb.in", "lbin"), ("lb·in", "lbin"), ("lb⋅in", "lbin"), ("lb-in", "lbin"), ("pound inch", "lbin"), ("pound inches", "lbin"), ("pound-inches", "lbin"), ("pound-inch", "lbin"),
  ("in-lbs", "lbin"), ("inch-pounds", "lbin"), ("inch-pound", "lbin"), ("inch pounds", "lbin"), ("inch pound", "lbin"),
  ("kg.m", "kgm"), ("kg·m", "kgm"), ("kg⋅m", "kgm"), ("kg-m", "kgm"), ("kilogram meter", "kgm"), ("kilogram meters", "kgm"),
  ("kgf.m", "kgfm"), ("kgf·m", "kgfm"), ("kgf⋅m", "kgfm"), ("kgf-m", "kgfm"), ("kilogram force meter", "kgfm"), ("kilogram force meters", "kgfm"), ("kilogram-force meters", "kgfm"), ("kilogram-force meter", "kgfm"),
  ("oz.in", "ozin"), ("oz·in", "ozin"), ("oz⋅in", "ozin"), ("oz-in", "ozin"), ("ounce inch", "ozin"), ("ounce inches", "ozin"),
  ("pascal", "pa"), ("pascals", "pa"),
  ("millibar", "mbar"),
  ("atmosphere", "atm"), ("atmospheres", "atm"),
  ("pounds per square inch", "psi"), ("pound per square inch", "psi"),
  ("pounds per square foot", "psf"), ("pound per square foot", "psf"),
  ("millimeters of mercury", "mmhg"), ("millimeter of mercury", "mmhg"),
  ("inches of mercury", "inhg"), ("inch of mercury", "inhg"), ("inhg", "inhg"),
  ("mm Hg", "mmhg"), ("mmhg", "mmhg"),
  ("in Hg", "inhg"), ("inHg", "inhg"),
  ("kilopascal", "kpa"), ("kilopascals", "kpa"), ("kPa", "kpa"),
  ("megapascal", "mpa"), ("megapascals", "mpa"), ("MPa", "mpa")]

/-- `UnitConverter.normalizeUnit`:
`this.unitAliases[normalized] || normalized` after cleaning. -/
def normalizeUnit (s : String) : String :=
  match look UNIT_ALIASES (cleanUnit s) with
  | some a => a
  | none => cleanUnit s

/-! ## `CONVERSION_RATIOS` (`data/conversion-data.js`) -/

def lengthRatios : List (String × ℚ) := [
  ("m", 1), ("cm", 100), ("mm", 1000), ("um", 1000000), ("nm", 1000000000),
  ("km", 0.001), ("in", 39.3701), ("ft", 3.28084), ("yd", 1.09361), ("mi", 0.000621371)]

def weightRatios : List (String × ℚ) := [
  ("kg", 1), ("g", 1000), ("mg", 1000000), ("lb", 2.20462), ("oz", 35.274), ("t", 0.001)]

def volumeRatios : List (String × ℚ) := [
  ("l", 1), ("ml", 1000), ("gal", 0.264172), ("qt", 1.05669), ("pt", 2.11338),
  ("cup", 4.22675), ("fl_oz", 33.814), ("tbsp", 67.628), ("tsp", 202.884)]

def areaRatios : List (String × ℚ) := [
  ("m2", 1), ("cm2", 10000), ("mm2", 1000000), ("km2", 0.000001), ("ft2", 10.7639),
  ("in2", 1550), ("yd2", 1.19599), ("mi2", 3.861e-7), ("acre", 0.000247105)]

def speedRatios : List (String × ℚ) := [
  ("ms", 1), ("cms", 100), ("kmh", 0.277778), ("kms", 0.001), ("mph", 0.44704),
  ("mis", 0.000621371), ("fps", 0.3048), ("kn", 0.514444), ("mach", 343)]

def accelerationRatios : List (String × ℚ) := [
  ("ms2", 1), ("cms2", 100), ("kms2", 0.001), ("fts2", 3.28084), ("ins2", 39.3701),
  ("gforce", 0.101972)]

def flowRateRatios : List (String × ℚ) := [
  ("lmin", 1), ("lpm", 1), ("mlmin", 1000), ("mls", 16.6667), ("ls", 0.0166667),
  ("lh", 60), ("galmin", 0.264172), ("gpm", 0.264172), ("gals", 0.00440287),
  ("galh", 15.8503), ("m3s", 0.0000166667), ("m3h", 0.06), ("m3min", 0.001),
  ("cfm", 0.0353147), ("cfs", 0.000588578), ("cfh", 2.11888)]

def torqueRatios : List (String × ℚ) := [
  ("Nm", 1), ("lbft", 1.35582), ("lbin", 0.112985), ("kgm", 9.80665),
  ("kgfm", 9.80665), ("ozin", 0.00706155)]

def pressureRatios : List (String × ℚ) := [
  ("pa", 1), ("bar", 100000), ("mbar", 100), ("psi", 6894.76), ("atm", 101325),
  ("mmhg", 133.322), ("inhg", 3386.39), ("torr", 133.322), ("kpa", 1000),
  ("mpa", 1000000), ("psf", 47.8803)]

/-- The `timezone` table of `CONVERSION_RATIOS`.  Its JS values are functions;
only key membership (`hasOwnProperty`) is ever consulted, so the values are
modelled by a dummy `0`. -/
def timezoneRatios : List (String × ℚ) := [("utc", 0), ("gmt", 0)]

/-- The table a dimension name denotes (JS `this.conversions[unitType]`). -/
def ratioTableOf (d : String) : List (String × ℚ) :=
  if d = "length" then lengthRatios
  else if d = "weight" then weightRatios
  else if d = "volume" then volumeRatios
  else if d = "area" then areaRatios
  else if d = "speed" then speedRatios
  else if d = "acceleration" then accelerationRatios
  else if d = "flowRate" then flowRateRatios
  else if d = "torque" then torqueRatios
  else if d = "pressure" then pressureRatios
  else if d = "timezone" then timezoneRatios
  else []

/-- `getUnitType` iterates `Object.entries(this.conversions)` in insertion
order, skipping `temperature`, and returns the first dimension whose table has
the normalized unit as a key.  That loop is equivalent to a first-match lookup
over the tables' keys concatenated in insertion order (keys are unique within
each table), which is how it is modelled here. -/
def DIM_INDEX : List (String × String) :=
  (lengthRatios.map fun p => (p.1, "length")) ++
  (weightRatios.map fun p => (p.1, "weight")) ++
  (volumeRatios.map fun p => (p.1, "volume")) ++
  (areaRatios.map fun p => (p.1, "area")) ++
  (speedRatios.map fun p => (p.1, "speed")) ++
  (accelerationRatios.map fun p => (p.1, "acceleration")) ++
  (flowRateRatios.map fun p => (p.1, "flowRate")) ++
  (torqueRatios.map fun p => (p.1, "torque")) ++
  (pressureRatios.map fun p => (p.1, "pressure")) ++
  (timezoneRatios.map fun p => (p.1, "timezone"))

/-- The table-membership part of `UnitConverter.getUnitType`, applied to an
already-normalized unit.  After the loop the source checks
`['c','f','k'].includes(normalizedUnit)` for temperature.  (The final
fallthrough consulting the live currency converter is omitted, see header.) -/
def getUnitTypeCanon (u : String) : Option String :=
  match look DIM_INDEX u with
  | some t => some t
  | none => if u = "c" ∨ u = "f" ∨ u = "k" then some "temperature" else none

/-- `UnitConverter.getUnitType` (normalizes its argument first). -/
def getUnitType (u : String) : Option String :=
  getUnitTypeCanon (normalizeUnit u)

/-! ## Converters (`utils/unit-converter.js`) -/

/-- JS truthiness of a looked-up ratio: `!table[u]` is true both for a missing
key and for a value `0` (no table stores `0`, but the guard is kept faithful). -/
def truthyLook (l : List (String × ℚ)) (k : String) : Option ℚ :=
  match look l k with
  | some v => if v = 0 then none else some v
  | none => none

/-- `UnitConverter.convertTemperature` — two-step via Celsius. -/
def convertTemperature (value : ℚ) (f t : String) : ℚ :=
  let celsius : ℚ :=
    if f = "f" then (value - 32) * 5 / 9
    else if f = "k" then value - 273.15
    else value
  if t = "f" then (celsius * 9 / 5) + 32
  else if t = "k" then celsius + 273.15
  else celsius

/-- `UnitConverter.convertSpeed`: `m/s = value * ratio(from)`, then
`/ ratio(to)` — note the multiply-to-base orientation. -/
def convertSpeed (value : ℚ) (fromUnit toUnit : String) : Option ℚ :=
  let nf := normalizeUnit fromUnit
  let nt := normalizeUnit toUnit
  match truthyLook speedRatios nf, truthyLook speedRatios nt with
  | some rf, some rt => some (value * rf / rt)
  | _, _ => none

/-- `UnitConverter.convertAcceleration`: divide-to-base orientation. -/
def convertAcceleration (value : ℚ) (fromUnit toUnit : String) : Option ℚ :=
  let nf := normalizeUnit fromUnit
  let nt := normalizeUnit toUnit
  match truthyLook accelerationRatios nf, truthyLook accelerationRatios nt with
  | some rf, some rt => some (value / rf * rt)
  | _, _ => none

/-- `UnitConverter.convertFlowRate`: divide-to-base orientation. -/
def convertFlowRate (value : ℚ) (fromUnit toUnit : String) : Option ℚ :=
  let nf := normalizeUnit fromUnit
  let nt := normalizeUnit toUnit
  match truthyLook flowRateRatios nf, truthyLook flowRateRatios nt with
  | some rf, some rt => some (value / rf * rt)
  | _, _ => none

/-- `UnitConverter.convertTorque`: multiply-to-base orientation. -/
def convertTorque (value : ℚ) (fromUnit toUnit : String) : Option ℚ :=
  let nf := normalizeUnit fromUnit
  let nt := normalizeUnit toUnit
  match truthyLook torqueRatios nf, truthyLook torqueRatios nt with
  | some rf, some rt => some (value * rf / rt)
  | _, _ => none

/-- `UnitConverter.convertPressure`: multiply-to-base orientation. -/
def convertPressure (value : ℚ) (fromUnit toUnit : String) : Option ℚ :=
  let nf := normalizeUnit fromUnit
  let nt := normalizeUnit toUnit
  match truthyLook pressureRatios nf, truthyLook pressureRatios nt with
  | some rf, some rt => some (value * rf / rt)
  | _, _ => none

/-- `UnitConverter.convert` — the main dispatch.  Matches the source's
`switch (unitType)`; the `default` branch is the generic divide-to-base
conversion for length, weight, volume, area. -/
def convert (value : ℚ) (fromUnit toUnit : String) : Option ℚ :=
  let nf := normalizeUnit fromUnit
  let nt := normalizeUnit toUnit
  match getUnitType nf with
  | none => none
  | some unitType =>
    if getUnitType nt ≠ some unitType then none
    else if unitType = "temperature" then some (convertTemperature value nf nt)
    else if unitType = "speed" then convertSpeed value nf nt
    else if unitType = "acceleration" then convertAcceleration value nf nt
    else if unitType = "flowRate" then convertFlowRate value nf nt
    else if unitType = "torque" then convertTorque value nf nt
    else if unitType = "pressure" then convertPressure value nf nt
    else if unitType = "timezone" then none
    else
      match truthyLook (ratioTableOf unitType) nf, truthyLook (ratioTableOf unitType) nt with
      | some rf, some rt => some (value / rf * rt)
      | _, _ => none

/-! ## Registry facts used by the conversion theorems -/

theorem look_val_mem {α : Type} (l : List (String × α)) (k : String) (v : α)
    (h : look l k = some v) : (k, v) ∈ l := by
  induction l with
  | nil => simp [look] at h
  | cons p rest ih =>
    obtain ⟨k1, v1⟩ := p
    by_cases hk : k = k1
    · subst hk
      simp [look] at h
      simp [h]
    · simp [look, hk] at h
      exact List.mem_cons_of_mem _ (ih h)

theorem canon_look (k d : String) (h : getUnitTypeCanon k = some d)
    (hd : d ≠ "temperature") : look DIM_INDEX k = some d := by
  unfold getUnitTypeCanon at h
  cases hl : look DIM_INDEX k with
  | some t => rw [hl] at h; simpa using h
  | none =>
    rw [hl] at h
    by_cases hc : k = "c" ∨ k = "f" ∨ k = "k"
    · rw [if_pos hc] at h
      exact absurd (Option.some.inj h).symm hd
    · rw [if_neg hc] at h
      exact absurd h (by simp)

/-- Every key of the dimension index is a fixpoint of `normalizeUnit`
(lowercase, no whitespace, not an alias key), except torque's `Nm` and the
flow-rate duplicates `lpm`/`gpm`, which the alias table redirects. -/
theorem dim_fix : ∀ p ∈ DIM_INDEX,
    p.1 = "Nm" ∨ p.1 = "lpm" ∨ p.1 = "gpm" ∨ normalizeUnit p.1 = p.1 := by decide

/-- No alias value is `lpm` or `gpm`. -/
theorem alias_vals_not_shadowed : ∀ p ∈ UNIT_ALIASES,
    p.2 ≠ "lpm" ∧ p.2 ≠ "gpm" := by decide

/-- The shadowed table keys `lpm` and `gpm` are outside the range of
`normalizeUnit`: they are alias keys themselves (mapping to `lmin`/`galmin`)
and no alias produces them. -/
theorem normalize_not_shadowed (u : String) :
    normalizeUnit u ≠ "lpm" ∧ normalizeUnit u ≠ "gpm" := by
  unfold normalizeUnit
  cases halias : look UNIT_ALIASES (cleanUnit u) with
  | some a =>
    exact alias_vals_not_shadowed _ (look_val_mem _ _ _ halias)
  | none =>
    constructor
    · intro hlpm
      simp at hlpm
      rw [hlpm] at halias
      exact absurd halias (by decide)
    · intro hgpm
      simp at hgpm
      rw [hgpm] at halias
      exact absurd halias (by decide)

/-- The dimension tag of every index entry is one of the ten table names. -/
theorem dim_enum : ∀ p ∈ DIM_INDEX,
    p.2 = "length" ∨ p.2 = "weight" ∨ p.2 = "volume" ∨ p.2 = "area" ∨
    p.2 = "speed" ∨ p.2 = "acceleration" ∨ p.2 = "flowRate" ∨ p.2 = "torque" ∨
    p.2 = "pressure" ∨ p.2 = "timezone" := by decide

theorem dimval_length : ∀ p ∈ DIM_INDEX, p.2 = "length" →
    (truthyLook lengthRatios p.1).isSome = true := by with_unfolding_all decide

theorem dimval_weight : ∀ p ∈ DIM_INDEX, p.2 = "weight" →
    (truthyLook weightRatios p.1).isSome = true := by with_unfolding_all decide

theorem dimval_volume : ∀ p ∈ DIM_INDEX, p.2 = "volume" →
    (truthyLook volumeRatios p.1).isSome = true := by with_unfolding_all decide

theorem dimval_area : ∀ p ∈ DIM_INDEX, p.2 = "area" →
    (truthyLook areaRatios p.1).isSome = true := by with_unfolding_all decide

theorem dimval_speed : ∀ p ∈ DIM_INDEX, p.2 = "speed" →
    (truthyLook speedRatios p.1).isSome = true := by with_unfolding_all decide

theorem dimval_acceleration : ∀ p ∈ DIM_INDEX, p.2 = "acceleration" →
    (truthyLook accelerationRatios p.1).isSome = true := by with_unfolding_all decide

theorem dimval_flowRate : ∀ p ∈ DIM_INDEX, p.2 = "flowRate" →
    (truthyLook flowRateRatios p.1).isSome = true := by with_unfolding_all decide

theorem dimval_torque : ∀ p ∈ DIM_INDEX, p.2 = "torque" →
    (truthyLook torqueRatios p.1).isSome = true := by with_unfolding_all decide

theorem dimval_pressure : ∀ p ∈ DIM_INDEX, p.2 = "pressure" →
    (truthyLook pressureRatios p.1).isSome = true := by with_unfolding_all decide

theorem dimval_timezone : ∀ p ∈ DIM_INDEX, p.2 = "timezone" →
    (p.1 = "utc" ∨ p.1 = "gmt") := by decide

theorem truthyLook_ne_zero {l : List (String × ℚ)} {k : String} {r : ℚ}
    (h : truthyLook l k = some r) : r ≠ 0 := by
  unfold truthyLook at h
  cases hl : look l k with
  | none => rw [hl] at h; simp at h
  | some v =>
    rw [hl] at h
    by_cases hv : v = 0
    · simp [hv] at h
    · simp [hv] at h
      exact h ▸ hv

/-! ### Evaluation lemmas for `convert`, one per dimension -/

theorem convert_eval_length (u v : String) (x r1 r2 : ℚ)
    (hu : getUnitType u = some "length") (hv : getUnitType v = some "length")
    (hfu : normalizeUnit (normalizeUnit u) = normalizeUnit u)
    (hfv : normalizeUnit (normalizeUnit v) = normalizeUnit v)
    (hru : truthyLook lengthRatios (normalizeUnit u) = some r1)
    (hrv : truthyLook lengthRatios (normalizeUnit v) = some r2) :
    convert x u v = some (x / r1 * r2) := by
  have h1 : getUnitType (normalizeUnit u) = some "length" := by
    unfold getUnitType at hu ⊢; rw [hfu]; exact hu
  have h2 : getUnitType (normalizeUnit v) = some "length" := by
    unfold getUnitType at hv ⊢; rw [hfv]; exact hv
  simp only [convert]
  rw [h1, h2]
  simp [ratioTableOf, hru, hrv]

theorem convert_eval_weight (u v : String) (x r1 r2 : ℚ)
    (hu : getUnitType u = some "weight") (hv : getUnitType v = some "weight")
    (hfu : normalizeUnit (normalizeUnit u) = normalizeUnit u)
    (hfv : normalizeUnit (normalizeUnit v) = normalizeUnit v)
    (hru : truthyLook weightRatios (normalizeUnit u) = some r1)
    (hrv : truthyLook weightRatios (normalizeUnit v) = some r2) :
    convert x u v = some (x / r1 * r2) := by
  have h1 : getUnitType (normalizeUnit u) = some "weight" := by
    unfold getUnitType at hu ⊢; rw [hfu]; exact hu
  have h2 : getUnitType (normalizeUnit v) = some "weight" := by
    unfold getUnitType at hv ⊢; rw [hfv]; exact hv
  simp only [convert]
  rw [h1, h2]
  simp [ratioTableOf, hru, hrv]

theorem convert_eval_volume (u v : String) (x r1 r2 : ℚ)
    (hu : getUnitType u = some "volume") (hv : getUnitType v = some "volume")
    (hfu : normalizeUnit (normalizeUnit u) = normalizeUnit u)
    (hfv : normalizeUnit (normalizeUnit v) = normalizeUnit v)
    (hru : truthyLook volumeRatios (normalizeUnit u) = some r1)
    (hrv : truthyLook volumeRatios (normalizeUnit v) = some r2) :
    convert x u v = some (x / r1 * r2) := by
  have h1 : getUnitType (normalizeUnit u) = some "volume" := by
    unfold getUnitType at hu ⊢; rw [hfu]; exact hu
  have h2 : getUnitType (normalizeUnit v) = some "volume" := by
    unfold getUnitType at hv ⊢; rw [hfv]; exact hv
  simp only [convert]
  rw [h1, h2]
  simp [ratioTableOf, hru, hrv]

theorem convert_eval_area (u v : String) (x r1 r2 : ℚ)
    (hu : getUnitType u = some "area") (hv : getUnitType v = some "area")
    (hfu : normalizeUnit (normalizeUnit u) = normalizeUnit u)
    (hfv : normalizeUnit (normalizeUnit v) = normalizeUnit v)
    (hru : truthyLook areaRatios (normalizeUnit u) = some r1)
    (hrv : truthyLook areaRatios (normalizeUnit v) = some r2) :
    convert x u v = some (x / r1 * r2) := by
  have h1 : getUnitType (normalizeUnit u) = some "area" := by
    unfold getUnitType at hu ⊢; rw [hfu]; exact hu
  have h2 : getUnitType (normalizeUnit v) = some "area" := by
    unfold getUnitType at hv ⊢; rw [hfv]; exact hv
  simp only [convert]
  rw [h1, h2]
  simp [ratioTableOf, hru, hrv]

theorem convert_eval_speed (u v : String) (x r1 r2 : ℚ)
    (hu : getUnitType u = some "speed") (hv : getUnitType v = some "speed")
    (hfu : normalizeUnit (normalizeUnit u) = normalizeUnit u)
    (hfv : normalizeUnit (normalizeUnit v) = normalizeUnit v)
    (hru : truthyLook speedRatios (normalizeUnit u) = some r1)
    (hrv : truthyLook speedRatios (normalizeUnit v) = some r2) :
    convert x u v = some (x * r1 / r2) := by
  have h1 : getUnitType (normalizeUnit u) = some "speed" := by
    unfold getUnitType at hu ⊢; rw [hfu]; exact hu
  have h2 : getUnitType (normalizeUnit v) = some "speed" := by
    unfold getUnitType at hv ⊢; rw [hfv]; exact hv
  simp only [convert]
  rw [h1, h2]
  simp [convertSpeed, hfu, hfv, hru, hrv]

theorem convert_eval_acceleration (u v : String) (x r1 r2 : ℚ)
    (hu : getUnitType u = some "acceleration") (hv : getUnitType v = some "acceleration")
    (hfu : normalizeUnit (normalizeUnit u) = normalizeUnit u)
    (hfv : normalizeUnit (normalizeUnit v) = normalizeUnit v)
    (hru : truthyLook accelerationRatios (normalizeUnit u) = some r1)
    (hrv : truthyLook accelerationRatios (normalizeUnit v) = some r2) :
    convert x u v = some (x / r1 * r2) := by
  have h1 : getUnitType (normalizeUnit u) = some "acceleration" := by
    unfold getUnitType at hu ⊢; rw [hfu]; exact hu
  have h2 : getUnitType (normalizeUnit v) = some "acceleration" := by
    unfold getUnitType at hv ⊢; rw [hfv]; exact hv
  simp only [convert]
  rw [h1, h2]
  simp [convertAcceleration, hfu, hfv, hru, hrv]

theorem convert_eval_flowRate (u v : String) (x r1 r2 : ℚ)
    (hu : getUnitType u = some "flowRate") (hv : getUnitType v = some "flowRate")
    (hfu : normalizeUnit (normalizeUnit u) = normalizeUnit u)
    (hfv : normalizeUnit (normalizeUnit v) = normalizeUnit v)
    (hru : truthyLook flowRateRatios (normalizeUnit u) = some r1)
    (hrv : truthyLook flowRateRatios (normalizeUnit v) = some r2) :
    convert x u v = some (x / r1 * r2) := by
  have h1 : getUnitType (normalizeUnit u) = some "flowRate" := by
    unfold getUnitType at hu ⊢; rw [hfu]; exact hu
  have h2 : getUnitType (normalizeUnit v) = some "flowRate" := by
    unfold getUnitType at hv ⊢; rw [hfv]; exact hv
  simp only [convert]
  rw [h1, h2]
  simp [convertFlowRate, hfu, hfv, hru, hrv]

theorem convert_eval_torque (u v : String) (x r1 r2 : ℚ)
    (hu : getUnitType u = some "torque") (hv : getUnitType v = some "torque")
    (hfu : normalizeUnit (normalizeUnit u) = normalizeUnit u)
    (hfv : normalizeUnit (normalizeUnit v) = normalizeUnit v)
    (hru : truthyLook torqueRatios (normalizeUnit u) = some r1)
    (hrv : truthyLook torqueRatios (normalizeUnit v) = some r2) :
    convert x u v = some (x * r1 / r2) := by
  have h1 : getUnitType (normalizeUnit u) = some "torque" := by
    unfold getUnitType at hu ⊢; rw [hfu]; exact hu
  have h2 : getUnitType (normalizeUnit v) = some "torque" := by
    unfold getUnitType at hv ⊢; rw [hfv]; exact hv
  simp only [convert]
  rw [h1, h2]
  simp [convertTorque, hfu, hfv, hru, hrv]

theorem convert_eval_pressure (u v : String) (x r1 r2 : ℚ)
    (hu : getUnitType u = some "pressure") (hv : getUnitType v = some "pressure")
    (hfu : normalizeUnit (normalizeUnit u) = normalizeUnit u)
    (hfv : normalizeUnit (normalizeUnit v) = normalizeUnit v)
    (hru : truthyLook pressureRatios (normalizeUnit u) = some r1)
    (hrv : truthyLook pressureRatios (normalizeUnit v) = some r2) :
    convert x u v = some (x * r1 / r2) := by
  have h1 : getUnitType (normalizeUnit u) = some "pressure" := by
    unfold getUnitType at hu ⊢; rw [hfu]; exact hu
  have h2 : getUnitType (normalizeUnit v) = some "pressure" := by
    unfold getUnitType at hv ⊢; rw [hfv]; exact hv
  simp only [convert]
  rw [h1, h2]
  simp [convertPressure, hfu, hfv, hru, hrv]

/-! ### Derivation helpers -/

theorem unit_mem_of_type (u d : String) (hu : getUnitType u = some d)
    (hd : d ≠ "temperature") : (normalizeUnit u, d) ∈ DIM_INDEX := by
  unfold getUnitType at hu
  exact look_val_mem _ _ _ (canon_look _ _ hu hd)

theorem unit_fix_of_mem (u d : String) (hmem : (normalizeUnit u, d) ∈ DIM_INDEX)
    (hNm : normalizeUnit u ≠ "Nm") :
    normalizeUnit (normalizeUnit u) = normalizeUnit u := by
  rcases dim_fix _ hmem with h | h | h | h
  · exact absurd h hNm
  · exact absurd h (normalize_not_shadowed u).1
  · exact absurd h (normalize_not_shadowed u).2
  · exact h

theorem truthyLook_eq_look {l : List (String × ℚ)} {k : String} {r : ℚ}
    (h : look l k = some r) (hr : r ≠ 0) : truthyLook l k = some r := by
  simp [truthyLook, h, hr]

theorem lengthRatios_nonzero : ∀ p ∈ lengthRatios, p.2 ≠ (0:ℚ) := by
  with_unfolding_all decide

theorem weightRatios_nonzero : ∀ p ∈ weightRatios, p.2 ≠ (0:ℚ) := by
  with_unfolding_all decide

theorem volumeRatios_nonzero : ∀ p ∈ volumeRatios, p.2 ≠ (0:ℚ) := by
  with_unfolding_all decide

theorem areaRatios_nonzero : ∀ p ∈ areaRatios, p.2 ≠ (0:ℚ) := by
  with_unfolding_all decide

theorem speedRatios_nonzero : ∀ p ∈ speedRatios, p.2 ≠ (0:ℚ) := by
  with_unfolding_all decide

theorem accelerationRatios_nonzero : ∀ p ∈ accelerationRatios, p.2 ≠ (0:ℚ) := by
  with_unfolding_all decide

theorem flowRateRatios_nonzero : ∀ p ∈ flowRateRatios, p.2 ≠ (0:ℚ) := by
  with_unfolding_all decide

theorem torqueRatios_nonzero : ∀ p ∈ torqueRatios, p.2 ≠ (0:ℚ) := by
  with_unfolding_all decide

theorem pressureRatios_nonzero : ∀ p ∈ pressureRatios, p.2 ≠ (0:ℚ) := by
  with_unfolding_all decide

/-! ### Base-unit conversion, one helper per dimension -/

theorem base_conv_length (u : String) (x r : ℚ)
    (hu : getUnitType u = some "length")
    (hr : look lengthRatios (normalizeUnit u) = some r) :
    convert x u "m" = some (x / r) ∧ convert x "m" u = some (x * r) := by
  have hmem := unit_mem_of_type u _ hu (by decide)
  have hNm : normalizeUnit u ≠ "Nm" := by
    intro h; rw [h] at hmem; exact absurd hmem (by decide)
  have hfu := unit_fix_of_mem u _ hmem hNm
  have hrz : r ≠ 0 := lengthRatios_nonzero _ (look_val_mem _ _ _ hr)
  have htr := truthyLook_eq_look hr hrz
  have hm : getUnitType "m" = some "length" := by decide
  have hfm : normalizeUnit (normalizeUnit "m") = normalizeUnit "m" := by decide
  have htm : truthyLook lengthRatios (normalizeUnit "m") = some 1 := by
    with_unfolding_all rfl
  constructor
  · rw [convert_eval_length u "m" x r 1 hu hm hfu hfm htr htm]
    simp only [mul_one]
  · rw [convert_eval_length "m" u x 1 r hm hu hfm hfu htm htr]
    simp only [div_one, mul_one]

theorem base_conv_weight (u : String) (x r : ℚ)
    (hu : getUnitType u = some "weight")
    (hr : look weightRatios (normalizeUnit u) = some r) :
    convert x u "kg" = some (x / r) ∧ convert x "kg" u = some (x * r) := by
  have hmem := unit_mem_of_type u _ hu (by decide)
  have hNm : normalizeUnit u ≠ "Nm" := by
    intro h; rw [h] at hmem; exact absurd hmem (by decide)
  have hfu := unit_fix_of_mem u _ hmem hNm
  have hrz : r ≠ 0 := weightRatios_nonzero _ (look_val_mem _ _ _ hr)
  have htr := truthyLook_eq_look hr hrz
  have hm : getUnitType "kg" = some "weight" := by decide
  have hfm : normalizeUnit (normalizeUnit "kg") = normalizeUnit "kg" := by decide
  have htm : truthyLook weightRatios (normalizeUnit "kg") = some 1 := by
    with_unfolding_all rfl
  constructor
  · rw [convert_eval_weight u "kg" x r 1 hu hm hfu hfm htr htm]
    simp only [mul_one]
  · rw [convert_eval_weight "kg" u x 1 r hm hu hfm hfu htm htr]
    simp only [div_one, mul_one]

theorem base_conv_volume (u : String) (x r : ℚ)
    (hu : getUnitType u = some "volume")
    (hr : look volumeRatios (normalizeUnit u) = some r) :
    convert x u "l" = some (x / r) ∧ convert x "l" u = some (x * r) := by
  have hmem := unit_mem_of_type u _ hu (by decide)
  have hNm : normalizeUnit u ≠ "Nm" := by
    intro h; rw [h] at hmem; exact absurd hmem (by decide)
  have hfu := unit_fix_of_mem u _ hmem hNm
  have hrz : r ≠ 0 := volumeRatios_nonzero _ (look_val_mem _ _ _ hr)
  have htr := truthyLook_eq_look hr hrz
  have hm : getUnitType "l" = some "volume" := by decide
  have hfm : normalizeUnit (normalizeUnit "l") = normalizeUnit "l" := by decide
  have htm : truthyLook volumeRatios (normalizeUnit "l") = some 1 := by
    with_unfolding_all rfl
  constructor
  · rw [convert_eval_volume u "l" x r 1 hu hm hfu hfm htr htm]
    simp only [mul_one]
  · rw [convert_eval_volume "l" u x 1 r hm hu hfm hfu htm htr]
    simp only [div_one, mul_one]

theorem base_conv_area (u : String) (x r : ℚ)
    (hu : getUnitType u = some "area")
    (hr : look areaRatios (normalizeUnit u) = some r) :
    convert x u "m2" = some (x / r) ∧ convert x "m2" u = some (x * r) := by
  have hmem := unit_mem_of_type u _ hu (by decide)
  have hNm : normalizeUnit u ≠ "Nm" := by
    intro h; rw [h] at hmem; exact absurd hmem (by decide)
  have hfu := unit_fix_of_mem u _ hmem hNm
  have hrz : r ≠ 0 := areaRatios_nonzero _ (look_val_mem _ _ _ hr)
  have htr := truthyLook_eq_look hr hrz
  have hm : getUnitType "m2" = some "area" := by decide
  have hfm : normalizeUnit (normalizeUnit "m2") = normalizeUnit "m2" := by decide
  have htm : truthyLook areaRatios (normalizeUnit "m2") = some 1 := by
    with_unfolding_all rfl
  constructor
  · rw [convert_eval_area u "m2" x r 1 hu hm hfu hfm htr htm]
    simp only [mul_one]
  · rw [convert_eval_area "m2" u x 1 r hm hu hfm hfu htm htr]
    simp only [div_one, mul_one]

theorem base_conv_acceleration (u : String) (x r : ℚ)
    (hu : getUnitType u = some "acceleration")
    (hr : look accelerationRatios (normalizeUnit u) = some r) :
    convert x u "ms2" = some (x / r) ∧ convert x "ms2" u = some (x * r) := by
  have hmem := unit_mem_of_type u _ hu (by decide)
  have hNm : normalizeUnit u ≠ "Nm" := by
    intro h; rw [h] at hmem; exact absurd hmem (by decide)
  have hfu := unit_fix_of_mem u _ hmem hNm
  have hrz : r ≠ 0 := accelerationRatios_nonzero _ (look_val_mem _ _ _ hr)
  have htr := truthyLook_eq_look hr hrz
  have hm : getUnitType "ms2" = some "acceleration" := by decide
  have hfm : normalizeUnit (normalizeUnit "ms2") = normalizeUnit "ms2" := by decide
  have htm : truthyLook accelerationRatios (normalizeUnit "ms2") = some 1 := by
    with_unfolding_all rfl
  constructor
  · rw [convert_eval_acceleration u "ms2" x r 1 hu hm hfu hfm htr htm]
    simp only [mul_one]
  · rw [convert_eval_acceleration "ms2" u x 1 r hm hu hfm hfu htm htr]
    simp only [div_one, mul_one]

theorem base_conv_flowRate (u : String) (x r : ℚ)
    (hu : getUnitType u = some "flowRate")
    (hr : look flowRateRatios (normalizeUnit u) = some r) :
    convert x u "lmin" = some (x / r) ∧ convert x "lmin" u = some (x * r) := by
  have hmem := unit_mem_of_type u _ hu (by decide)
  have hNm : normalizeUnit u ≠ "Nm" := by
    intro h; rw [h] at hmem; exact absurd hmem (by decide)
  have hfu := unit_fix_of_mem u _ hmem hNm
  have hrz : r ≠ 0 := flowRateRatios_nonzero _ (look_val_mem _ _ _ hr)
  have htr := truthyLook_eq_look hr hrz
  have hm : getUnitType "lmin" = some "flowRate" := by decide
  have hfm : normalizeUnit (normalizeUnit "lmin") = normalizeUnit "lmin" := by decide
  have htm : truthyLook flowRateRatios (normalizeUnit "lmin") = some 1 := by
    with_unfolding_all rfl
  constructor
  · rw [convert_eval_flowRate u "lmin" x r 1 hu hm hfu hfm htr htm]
    simp only [mul_one]
  · rw [convert_eval_flowRate "lmin" u x 1 r hm hu hfm hfu htm htr]
    simp only [div_one, mul_one]

theorem base_conv_speed (u : String) (x r : ℚ)
    (hu : getUnitType u = some "speed")
    (hr : look speedRatios (normalizeUnit u) = some r) :
    convert x u "ms" = some (x * r) ∧ convert x "ms" u = some (x / r) := by
  have hmem := unit_mem_of_type u _ hu (by decide)
  have hNm : normalizeUnit u ≠ "Nm" := by
    intro h; rw [h] at hmem; exact absurd hmem (by decide)
  have hfu := unit_fix_of_mem u _ hmem hNm
  have hrz : r ≠ 0 := speedRatios_nonzero _ (look_val_mem _ _ _ hr)
  have htr := truthyLook_eq_look hr hrz
  have hm : getUnitType "ms" = some "speed" := by decide
  have hfm : normalizeUnit (normalizeUnit "ms") = normalizeUnit "ms" := by decide
  have htm : truthyLook speedRatios (normalizeUnit "ms") = some 1 := by
    with_unfolding_all rfl
  constructor
  · rw [convert_eval_speed u "ms" x r 1 hu hm hfu hfm htr htm]
    simp only [div_one]
  · rw [convert_eval_speed "ms" u x 1 r hm hu hfm hfu htm htr]
    simp only [div_one, mul_one]

theorem base_conv_pressure (u : String) (x r : ℚ)
    (hu : getUnitType u = some "pressure")
    (hr : look pressureRatios (normalizeUnit u) = some r) :
    convert x u "pa" = some (x * r) ∧ convert x "pa" u = some (x / r) := by
  have hmem := unit_mem_of_type u _ hu (by decide)
  have hNm : normalizeUnit u ≠ "Nm" := by
    intro h; rw [h] at hmem; exact absurd hmem (by decide)
  have hfu := unit_fix_of_mem u _ hmem hNm
  have hrz : r ≠ 0 := pressureRatios_nonzero _ (look_val_mem _ _ _ hr)
  have htr := truthyLook_eq_look hr hrz
  have hm : getUnitType "pa" = some "pressure" := by decide
  have hfm : normalizeUnit (normalizeUnit "pa") = normalizeUnit "pa" := by decide
  have htm : truthyLook pressureRatios (normalizeUnit "pa") = some 1 := by
    with_unfolding_all rfl
  constructor
  · rw [convert_eval_pressure u "pa" x r 1 hu hm hfu hfm htr htm]
    simp only [div_one]
  · rw [convert_eval_pressure "pa" u x 1 r hm hu hfm hfu htm htr]
    simp only [div_one, mul_one]

/-- Any conversion naming torque's base `Nm` (through any surface spelling)
returns `none`: `convert` re-normalizes the canonical code `Nm` to lowercase
`nm`, which the registry classifies as nanometer. -/
theorem torque_base_unreachable (u w : String) (x : ℚ)
    (hu : getUnitType u = some "torque") (hw : normalizeUnit w = "Nm") :
    convert x u w = none ∧ convert x w u = none := by
  have hmem := unit_mem_of_type u _ hu (by decide)
  have hNmty : getUnitType "Nm" = some "length" := by decide
  by_cases hNm : normalizeUnit u = "Nm"
  · constructor
    · simp only [convert]
      rw [hNm, hw, hNmty]
      simp [ratioTableOf]
      with_unfolding_all rfl
    · simp only [convert]
      rw [hNm, hw, hNmty]
      simp [ratioTableOf]
      with_unfolding_all rfl
  · have hfu := unit_fix_of_mem u _ hmem hNm
    have h1 : getUnitType (normalizeUnit u) = some "torque" := by
      unfold getUnitType at hu ⊢; rw [hfu]; exact hu
    constructor
    · simp only [convert]
      rw [hw, h1, hNmty]
      simp
    · simp only [convert]
      rw [hw, hNmty, h1]
      simp

/-! ## Claim theorems: C6, C7, C10 -/

/-- C6 (amended): the §3 ratio convention `value_in_base = value_in_u / r(u)`
holds through `convert` for length, weight, volume, area, acceleration and
flow rate; for speed and pressure the stored ratio is oriented inversely
(`value_in_base = value_in_u × r(u)`, so `convert` to the base multiplies and
from the base divides); torque also stores multiply-to-base ratios, but its
base code `Nm` cannot be named in `convert` at all (case normalization folds
`Nm` into nanometer), and between the other torque units `convert` computes
`x · r(u) / r(v)`. -/
theorem ratio_convention_amended (u d : String) (x r : ℚ)
    (hu : getUnitType u = some d)
    (hr : look (ratioTableOf d) (normalizeUnit u) = some r) :
    (d = "length" → convert x u "m" = some (x / r) ∧ convert x "m" u = some (x * r)) ∧
    (d = "weight" → convert x u "kg" = some (x / r) ∧ convert x "kg" u = some (x * r)) ∧
    (d = "volume" → convert x u "l" = some (x / r) ∧ convert x "l" u = some (x * r)) ∧
    (d = "area" → convert x u "m2" = some (x / r) ∧ convert x "m2" u = some (x * r)) ∧
    (d = "acceleration" → convert x u "ms2" = some (x / r) ∧ convert x "ms2" u = some (x * r)) ∧
    (d = "flowRate" → convert x u "lmin" = some (x / r) ∧ convert x "lmin" u = some (x * r)) ∧
    (d = "speed" → convert x u "ms" = some (x * r) ∧ convert x "ms" u = some (x / r)) ∧
    (d = "pressure" → convert x u "pa" = some (x * r) ∧ convert x "pa" u = some (x / r)) ∧
    (d = "torque" → normalizeUnit u ≠ "Nm" →
      ∀ w r2, getUnitType w = some "torque" → normalizeUnit w ≠ "Nm" →
        look torqueRatios (normalizeUnit w) = some r2 →
        convert x u w = some (x * r / r2)) ∧
    (d = "torque" → ∀ w, normalizeUnit w = "Nm" →
      convert x u w = none ∧ convert x w u = none) := by
  refine ⟨?_, ?_, ?_, ?_, ?_, ?_, ?_, ?_, ?_, ?_⟩
  · intro hd; subst hd
    simp only [ratioTableOf, if_pos rfl] at hr
    exact base_conv_length u x r hu hr
  · intro hd; subst hd
    simp [ratioTableOf] at hr
    exact base_conv_weight u x r hu hr
  · intro hd; subst hd
    simp [ratioTableOf] at hr
    exact base_conv_volume u x r hu hr
  · intro hd; subst hd
    simp [ratioTableOf] at hr
    exact base_conv_area u x r hu hr
  · intro hd; subst hd
    simp [ratioTableOf] at hr
    exact base_conv_acceleration u x r hu hr
  · intro hd; subst hd
    simp [ratioTableOf] at hr
    exact base_conv_flowRate u x r hu hr
  · intro hd; subst hd
    simp [ratioTableOf] at hr
    exact base_conv_speed u x r hu hr
  · intro hd; subst hd
    simp [ratioTableOf] at hr
    exact base_conv_pressure u x r hu hr
  · intro hd hNmu w r2 hw hNmw hr2; subst hd
    simp [ratioTableOf] at hr
    have hmemu := unit_mem_of_type u _ hu (by decide)
    have hmemw := unit_mem_of_type w _ hw (by decide)
    have hfu := unit_fix_of_mem u _ hmemu hNmu
    have hfw := unit_fix_of_mem w _ hmemw hNmw
    have htr := truthyLook_eq_look hr (torqueRatios_nonzero _ (look_val_mem _ _ _ hr))
    have htr2 := truthyLook_eq_look hr2 (torqueRatios_nonzero _ (look_val_mem _ _ _ hr2))
    exact convert_eval_torque u w x r r2 hu hw hfu hfw htr htr2
  · intro hd w hw; subst hd
    exact torque_base_unreachable u w x hu hw

/-- C6 counterexample: the claim asserts the §3 convention uniformly,
including speed: converting `1 km/h` to the speed base `m/s` should then give
`1 / r(kmh) = 3.6`, but the stored ratio is inverted and the code returns
`0.277778`. -/
theorem ratio_convention_counterexample :
    getUnitType "kmh" = some "speed" ∧
    look speedRatios "kmh" = some 0.277778 ∧
    convert 1 "kmh" "ms" = some 0.277778 ∧
    (0.277778 : ℚ) ≠ 1 / 0.277778 := by
  refine ⟨by decide, by with_unfolding_all rfl, by with_unfolding_all rfl, by norm_num⟩

/-- C6 witness: the amended convention instantiated at `ft` (length):
`convert 2 ft m = 2 / 3.28084` and `convert 2 m ft = 2 × 3.28084`. -/
theorem ratio_convention_witness :
    convert 2 "ft" "m" = some (2 / (3.28084 : ℚ)) ∧
    convert 2 "m" "ft" = some (2 * (3.28084 : ℚ)) :=
  (ratio_convention_amended "ft" "length" 2 3.28084 (by decide)
    (by with_unfolding_all rfl)).1 rfl

/-- C7 (amended): for every pair of units that `getUnitType` places in the
same dimension other than temperature and timezone, and whose normalized codes
are not torque's `Nm` (which the normalizer conflates with nanometer), the
round trip `convert (convert x a b) b a` returns exactly `x` — exact in ℚ,
hence within the claimed floating-point tolerance. -/
theorem convert_roundTrip_amended (u v d : String) (x : ℚ)
    (hu : getUnitType u = some d) (hv : getUnitType v = some d)
    (htemp : d ≠ "temperature") (htz : d ≠ "timezone")
    (hnmu : normalizeUnit u ≠ "Nm") (hnmv : normalizeUnit v ≠ "Nm") :
    ∃ y, convert x u v = some y ∧ convert y v u = some x := by
  have hmemu := unit_mem_of_type u d hu htemp
  have hmemv := unit_mem_of_type v d hv htemp
  have hfu := unit_fix_of_mem u d hmemu hnmu
  have hfv := unit_fix_of_mem v d hmemv hnmv
  rcases dim_enum _ hmemu with hd|hd|hd|hd|hd|hd|hd|hd|hd|hd <;> simp only at hd
  · subst hd
    obtain ⟨r1, hr1⟩ := Option.isSome_iff_exists.mp (dimval_length _ hmemu rfl)
    obtain ⟨r2, hr2⟩ := Option.isSome_iff_exists.mp (dimval_length _ hmemv rfl)
    have hz1 := truthyLook_ne_zero hr1
    have hz2 := truthyLook_ne_zero hr2
    refine ⟨x / r1 * r2, convert_eval_length u v x r1 r2 hu hv hfu hfv hr1 hr2, ?_⟩
    rw [convert_eval_length v u (x / r1 * r2) r2 r1 hv hu hfv hfu hr2 hr1]
    exact congrArg some (by field_simp; try ring)
  · subst hd
    obtain ⟨r1, hr1⟩ := Option.isSome_iff_exists.mp (dimval_weight _ hmemu rfl)
    obtain ⟨r2, hr2⟩ := Option.isSome_iff_exists.mp (dimval_weight _ hmemv rfl)
    have hz1 := truthyLook_ne_zero hr1
    have hz2 := truthyLook_ne_zero hr2
    refine ⟨x / r1 * r2, convert_eval_weight u v x r1 r2 hu hv hfu hfv hr1 hr2, ?_⟩
    rw [convert_eval_weight v u (x / r1 * r2) r2 r1 hv hu hfv hfu hr2 hr1]
    exact congrArg some (by field_simp; try ring)
  · subst hd
    obtain ⟨r1, hr1⟩ := Option.isSome_iff_exists.mp (dimval_volume _ hmemu rfl)
    obtain ⟨r2, hr2⟩ := Option.isSome_iff_exists.mp (dimval_volume _ hmemv rfl)
    have hz1 := truthyLook_ne_zero hr1
    have hz2 := truthyLook_ne_zero hr2
    refine ⟨x / r1 * r2, convert_eval_volume u v x r1 r2 hu hv hfu hfv hr1 hr2, ?_⟩
    rw [convert_eval_volume v u (x / r1 * r2) r2 r1 hv hu hfv hfu hr2 hr1]
    exact congrArg some (by field_simp; try ring)
  · subst hd
    obtain ⟨r1, hr1⟩ := Option.isSome_iff_exists.mp (dimval_area _ hmemu rfl)
    obtain ⟨r2, hr2⟩ := Option.isSome_iff_exists.mp (dimval_area _ hmemv rfl)
    have hz1 := truthyLook_ne_zero hr1
    have hz2 := truthyLook_ne_zero hr2
    refine ⟨x / r1 * r2, convert_eval_area u v x r1 r2 hu hv hfu hfv hr1 hr2, ?_⟩
    rw [convert_eval_area v u (x / r1 * r2) r2 r1 hv hu hfv hfu hr2 hr1]
    exact congrArg some (by field_simp; try ring)
  · subst hd
    obtain ⟨r1, hr1⟩ := Option.isSome_iff_exists.mp (dimval_speed _ hmemu rfl)
    obtain ⟨r2, hr2⟩ := Option.isSome_iff_exists.mp (dimval_speed _ hmemv rfl)
    have hz1 := truthyLook_ne_zero hr1
    have hz2 := truthyLook_ne_zero hr2
    refine ⟨x * r1 / r2, convert_eval_speed u v x r1 r2 hu hv hfu hfv hr1 hr2, ?_⟩
    rw [convert_eval_speed v u (x * r1 / r2) r2 r1 hv hu hfv hfu hr2 hr1]
    exact congrArg some (by field_simp; try ring)
  · subst hd
    obtain ⟨r1, hr1⟩ := Option.isSome_iff_exists.mp (dimval_acceleration _ hmemu rfl)
    obtain ⟨r2, hr2⟩ := Option.isSome_iff_exists.mp (dimval_acceleration _ hmemv rfl)
    have hz1 := truthyLook_ne_zero hr1
    have hz2 := truthyLook_ne_zero hr2
    refine ⟨x / r1 * r2, convert_eval_acceleration u v x r1 r2 hu hv hfu hfv hr1 hr2, ?_⟩
    rw [convert_eval_acceleration v u (x / r1 * r2) r2 r1 hv hu hfv hfu hr2 hr1]
    exact congrArg some (by field_simp; try ring)
  · subst hd
    obtain ⟨r1, hr1⟩ := Option.isSome_iff_exists.mp (dimval_flowRate _ hmemu rfl)
    obtain ⟨r2, hr2⟩ := Option.isSome_iff_exists.mp (dimval_flowRate _ hmemv rfl)
    have hz1 := truthyLook_ne_zero hr1
    have hz2 := truthyLook_ne_zero hr2
    refine ⟨x / r1 * r2, convert_eval_flowRate u v x r1 r2 hu hv hfu hfv hr1 hr2, ?_⟩
    rw [convert_eval_flowRate v u (x / r1 * r2) r2 r1 hv hu hfv hfu hr2 hr1]
    exact congrArg some (by field_simp; try ring)
  · subst hd
    obtain ⟨r1, hr1⟩ := Option.isSome_iff_exists.mp (dimval_torque _ hmemu rfl)
    obtain ⟨r2, hr2⟩ := Option.isSome_iff_exists.mp (dimval_torque _ hmemv rfl)
    have hz1 := truthyLook_ne_zero hr1
    have hz2 := truthyLook_ne_zero hr2
    refine ⟨x * r1 / r2, convert_eval_torque u v x r1 r2 hu hv hfu hfv hr1 hr2, ?_⟩
    rw [convert_eval_torque v u (x * r1 / r2) r2 r1 hv hu hfv hfu hr2 hr1]
    exact congrArg some (by field_simp; try ring)
  · subst hd
    obtain ⟨r1, hr1⟩ := Option.isSome_iff_exists.mp (dimval_pressure _ hmemu rfl)
    obtain ⟨r2, hr2⟩ := Option.isSome_iff_exists.mp (dimval_pressure _ hmemv rfl)
    have hz1 := truthyLook_ne_zero hr1
    have hz2 := truthyLook_ne_zero hr2
    refine ⟨x * r1 / r2, convert_eval_pressure u v x r1 r2 hu hv hfu hfv hr1 hr2, ?_⟩
    rw [convert_eval_pressure v u (x * r1 / r2) r2 r1 hv hu hfv hfu hr2 hr1]
    exact congrArg some (by field_simp; try ring)
  · exact absurd hd htz

/-- C7 counterexample: `N·m` and `lb·ft` both belong to the torque dimension,
yet their conversion is `none` (no round trip at all): `convert` lowercases
the canonical `Nm` to `nm`, nanometer. -/
theorem convert_roundTrip_counterexample :
    getUnitType "N·m" = some "torque" ∧ getUnitType "lb·ft" = some "torque" ∧
    convert 1 "N·m" "lb·ft" = none ∧
    ¬ ∃ y : ℚ, convert 1 "N·m" "lb·ft" = some y ∧ convert y "lb·ft" "N·m" = some 1 := by
  have h : convert 1 "N·m" "lb·ft" = none := by with_unfolding_all rfl
  refine ⟨by decide, by decide, h, ?_⟩
  rintro ⟨y, hy, _⟩
  rw [h] at hy
  exact absurd hy (by simp)

/-- C7 witness: a concrete same-dimension round trip (`km/h` and `mph`). -/
theorem convert_roundTrip_witness :
    ∃ y, convert 5 "kmh" "mph" = some y ∧ convert y "mph" "kmh" = some 5 :=
  convert_roundTrip_amended "kmh" "mph" "speed" 5 (by decide) (by decide)
    (by decide) (by decide) (by decide) (by decide)

/-- C10 (confirmed): for every numeric value and every pair of units that
normalize into the timezone dimension, the scalar `convert` returns `none`
unconditionally — the `switch` has an explicit `case 'timezone': return null`,
so numeric time conversion is reachable only through `convertTimezone`. -/
theorem convert_timezone_null (x : ℚ) (u v : String)
    (hu : getUnitType u = some "timezone") (hv : getUnitType v = some "timezone") :
    convert x u v = none := by
  have hmemu := unit_mem_of_type u _ hu (by decide)
  have hmemv := unit_mem_of_type v _ hv (by decide)
  have h1 : getUnitType (normalizeUnit u) = some "timezone" := by
    rcases dimval_timezone _ hmemu rfl with h | h <;>
      (replace h : normalizeUnit u = _ := h; unfold getUnitType; rw [h]; decide)
  have h2 : getUnitType (normalizeUnit v) = some "timezone" := by
    rcases dimval_timezone _ hmemv rfl with h | h <;>
      (replace h : normalizeUnit v = _ := h; unfold getUnitType; rw [h]; decide)
  simp only [convert]
  rw [h1, h2]
  simp

/-- C10 witness: `UTC` and `GMT` both normalize into the timezone dimension
and `convert` rejects them. -/
theorem convert_timezone_null_witness :
    getUnitType "UTC" = some "timezone" ∧ getUnitType "GMT" = some "timezone" ∧
    convert 5 "UTC" "GMT" = none :=
  ⟨by decide, by decide, convert_timezone_null 5 "UTC" "GMT" (by decide) (by decide)⟩

/-! ## Settings, rounding and the best-unit auto-sizer -/

/-- `data/default-settings.js` consumers use `DEFAULT_UNITS` from
`data/conversion-data.js`. -/
def DEFAULT_UNITS : List (String × String) := [
  ("length", "m"), ("weight", "kg"), ("temperature", "c"), ("volume", "l"),
  ("area", "m2"), ("speed", "ms"), ("acceleration", "ms2"), ("flowRate", "lmin"),
  ("torque", "Nm"), ("pressure", "pa"), ("timezone", "auto"), ("currency", "usd")]

/-- User settings record: each per-dimension target unit is optional, as in the
stored JS settings object. -/
structure UserSettings where
  lengthUnit : Option String := none
  weightUnit : Option String := none
  temperatureUnit : Option String := none
  volumeUnit : Option String := none
  areaUnit : Option String := none
  speedUnit : Option String := none
  accelerationUnit : Option String := none
  flowRateUnit : Option String := none
  torqueUnit : Option String := none
  pressureUnit : Option String := none
  timezoneUnit : Option String := none
  currencyUnit : Option String := none

/-- The `settingKey` ternary chain of `getDefaultTargetUnit` (its final
fallback is `lengthUnit`). -/
def settingFor (t : String) (s : UserSettings) : Option String :=
  if t = "weight" then s.weightUnit
  else if t = "temperature" then s.temperatureUnit
  else if t = "volume" then s.volumeUnit
  else if t = "area" then s.areaUnit
  else if t = "speed" then s.speedUnit
  else if t = "acceleration" then s.accelerationUnit
  else if t = "flowRate" then s.flowRateUnit
  else if t = "torque" then s.torqueUnit
  else if t = "pressure" then s.pressureUnit
  else if t = "timezone" then s.timezoneUnit
  else if t = "currency" then s.currencyUnit
  else s.lengthUnit

/-- `UnitConverter.getDefaultTargetUnit`:
`userSettings[settingKey] || this.defaultUnits[unitType]` (an empty-string
setting is falsy and falls back to the default, like in JS). -/
def getDefaultTargetUnit (sourceUnit : String) (s : UserSettings) : Option String :=
  match getUnitType sourceUnit with
  | none => none
  | some t =>
    match settingFor t s with
    | some v => if v = "" then look DEFAULT_UNITS t else some v
    | none => look DEFAULT_UNITS t

/-- JS `Math.round`: round half toward positive infinity. -/
def jsRound (x : ℚ) : ℚ := ((⌊x + 1/2⌋ : ℤ) : ℚ)

/-- The rounding of `formatResult` / the dimension renderer:
`Math.round(v * 100) / 100`. -/
def round2 (x : ℚ) : ℚ := jsRound (x * 100) / 100

/-- Table read `units.k` inside `getBestUnit`; every key used exists except
volume's `floz` (handled explicitly below). -/
def lookD (l : List (String × ℚ)) (k : String) : ℚ := (look l k).getD 0

/-- Stand-in for the JS `NaN` produced by `value * units.floz` (the volume
table's key is `fl_oz`, so `units.floz` is `undefined`).  `NaN` has no ℚ
representative; no theorem relies on this branch. -/
def jsNaN : ℚ := 0

/-- `UnitConverter.getBestUnit` — the auto-sizer, translated branch by branch.
The source's sequence of early `return`s becomes an if-else chain ending in
the common `return { value, unit: defaultUnit }`. -/
def getBestUnit (value : ℚ) (unitType : String) (defaultUnit : String) : ℚ × String :=
  if unitType = "length" then
    if value < 1 ∧ defaultUnit = "m" then
      let cmValue := value * lookD lengthRatios "cm"
      if cmValue ≥ 1 then (cmValue, "cm")
      else (value * lookD lengthRatios "mm", "mm")
    else if value < 1 ∧ defaultUnit = "ft" then
      (value * lookD lengthRatios "in", "in")
    else if value < 1 ∧ defaultUnit = "yd" then
      let ftValue := value * lookD lengthRatios "ft"
      if ftValue ≥ 1 then (ftValue, "ft")
      else (value * lookD lengthRatios "in", "in")
    else if value > 1000 ∧ defaultUnit = "m" then
      (value * lookD lengthRatios "km", "km")
    else if value > 5280 ∧ defaultUnit = "ft" then
      (value * lookD lengthRatios "mi", "mi")
    else (value, defaultUnit)
  else if unitType = "weight" then
    if value < 1 ∧ defaultUnit = "kg" then (value * lookD weightRatios "g", "g")
    else if value < 1 ∧ defaultUnit = "lb" then (value * lookD weightRatios "oz", "oz")
    else if value > 1000 ∧ defaultUnit = "kg" then (value * lookD weightRatios "t", "t")
    else (value, defaultUnit)
  else if unitType = "volume" then
    if value < 1 ∧ defaultUnit = "l" then (value * lookD volumeRatios "ml", "ml")
    else if value < 1 ∧ defaultUnit = "gal" then
      let qtValue := value * lookD volumeRatios "qt"
      if qtValue ≥ 1 then (qtValue, "qt")
      else
        let ptValue := value * lookD volumeRatios "pt"
        if ptValue ≥ 1 then (ptValue, "pt")
        else
          let cupValue := value * lookD volumeRatios "cup"
          if cupValue ≥ 1 then (cupValue, "cup")
          else
            match look volumeRatios "floz" with
            | some r => (value * r, "floz")
            | none => (jsNaN, "floz")
    else (value, defaultUnit)
  else if unitType = "area" then
    if value < 1 ∧ defaultUnit = "m2" then
      let cm2Value := value * lookD areaRatios "cm2"
      if cm2Value ≥ 1 then (cm2Value, "cm2")
      else (value * lookD areaRatios "mm2", "mm2")
    else if value < 1 ∧ defaultUnit = "ft2" then
      (value * lookD areaRatios "in2", "in2")
    else if value > 1000000 ∧ defaultUnit = "m2" then
      (value * lookD areaRatios "km2", "km2")
    else if value > 43560 ∧ defaultUnit = "ft2" then
      (value * lookD areaRatios "acre", "acre")
    else (value, defaultUnit)
  else if unitType = "speed" then
    if defaultUnit = "ms" then
      if value > 50 then (value / lookD speedRatios "kmh", "kmh")
      else (value, defaultUnit)
    else if defaultUnit = "kmh" then
      if value < 1 then (value * lookD speedRatios "kmh", "ms")
      else (value, defaultUnit)
    else if defaultUnit = "mph" then
      if value < 1 then (value * lookD speedRatios "mph" / lookD speedRatios "fps", "fps")
      else (value, defaultUnit)
    else (value, defaultUnit)
  else if unitType = "pressure" then
    if defaultUnit = "pa" then
      if value ≥ 100000 then (value / lookD pressureRatios "bar", "bar")
      else if value ≥ 1000 then (value / lookD pressureRatios "kpa", "kpa")
      else (value, defaultUnit)
    else if defaultUnit = "kpa" then
      if value < 1 then (value * lookD pressureRatios "kpa" / lookD pressureRatios "pa", "pa")
      else if value ≥ 100 then (value / (lookD pressureRatios "bar" / lookD pressureRatios "kpa"), "bar")
      else (value, defaultUnit)
    else if defaultUnit = "bar" then
      if value < 0.01 then (value * lookD pressureRatios "bar" / lookD pressureRatios "kpa", "kpa")
      else (value, defaultUnit)
    else (value, defaultUnit)
  else (value, defaultUnit)

/-! ## The detector (`ConversionDetector`, second half of
`utils/unit-converter.js`) -/

/-- One iteration of `detectUnit`'s priority loop after the regex produced a
numeric group and a unit group: normalization, target lookup, the
same-as-target skip, conversion, auto-sizing, the no-op suppression, and the
rounding of `formatResult` (display names elided — the canonical unit code is
returned). -/
def detectUnitCore (unitType : String) (value : ℚ) (unit : String)
    (s : UserSettings) : Option (ℚ × String) :=
  let nu := normalizeUnit unit
  if nu = "" then none
  else
    match getDefaultTargetUnit nu s with
    | none => none
    | some targetUnit =>
      if targetUnit = "" then none
      else if nu = targetUnit then none
      else
        match convert value nu targetUnit with
        | none => none
        | some convertedValue =>
          let best := getBestUnit convertedValue unitType targetUnit
          if best.2 = nu ∧ |best.1 - value| < 0.01 then none
          else some (round2 best.1, best.2)

/-- The emitted dimension triple: the rendered values (rounded to two
decimals) and the display unit. -/
structure DimOut where
  l : ℚ
  w : ℚ
  h : ℚ
  unit : String

/-- `detectDimension`'s chosen display unit: the per-axis auto-sized units of
the three already-converted axes, harmonized — the alternate unit is used only
when all three axes prefer the same non-target unit
(`allDimensionsPreferSameUnit`). -/
def dimChosenUnit (ca cb cc : ℚ) (targetUnit : String) : String :=
  let bestLength := getBestUnit ca "length" targetUnit
  let bestWidth := getBestUnit cb "length" targetUnit
  let bestHeight := getBestUnit cc "length" targetUnit
  if bestLength.2 = bestWidth.2 ∧ bestWidth.2 = bestHeight.2 ∧
     bestLength.2 ≠ targetUnit
  then bestLength.2 else targetUnit

/-- `detectDimension`'s emission step: re-convert the three original values
into the chosen unit (`finalLength/Width/Height`), suppress the no-op case,
and round for display.  (`(convert …).getD 0` models the JS coercion
`Math.round(null * 100) = 0`; the branch is unreachable because the chosen
unit is always convertible.) -/
def dimEmit (a b c : ℚ) (nu targetUnit : String) (ca cb cc : ℚ) : Option DimOut :=
  if dimChosenUnit ca cb cc targetUnit = nu ∧
     |(convert a nu (dimChosenUnit ca cb cc targetUnit)).getD 0 - a| < 0.01 ∧
     |(convert b nu (dimChosenUnit ca cb cc targetUnit)).getD 0 - b| < 0.01 ∧
     |(convert c nu (dimChosenUnit ca cb cc targetUnit)).getD 0 - c| < 0.01
  then none
  else some ⟨round2 ((convert a nu (dimChosenUnit ca cb cc targetUnit)).getD 0),
             round2 ((convert b nu (dimChosenUnit ca cb cc targetUnit)).getD 0),
             round2 ((convert c nu (dimChosenUnit ca cb cc targetUnit)).getD 0),
             dimChosenUnit ca cb cc targetUnit⟩

/-- `detectDimension` after the coverage check: unit normalization, target
lookup, conversion of the three axes, then `dimEmit`. -/
def detectDimensionAfterCoverage (a b c : ℚ) (unit : String)
    (s : UserSettings) : Option DimOut :=
  if normalizeUnit unit = "" then none
  else
    match getDefaultTargetUnit (normalizeUnit unit) s with
    | none => none
    | some targetUnit =>
      if targetUnit = "" then none
      else
        match convert a (normalizeUnit unit) targetUnit,
              convert b (normalizeUnit unit) targetUnit,
              convert c (normalizeUnit unit) targetUnit with
        | some ca, some cb, some cc =>
          dimEmit a b c (normalizeUnit unit) targetUnit ca cb cc
        | _, _, _ => none

/-- `detectDimension` given the regex match: the full-match coverage guard
`fullMatch.length < text.length * 0.8` followed by the conversion logic. -/
def detectDimensionCore (text fullMatch : String) (a b c : ℚ) (unit : String)
    (s : UserSettings) : Option DimOut :=
  if (fullMatch.length : ℚ) < (text.length : ℚ) * 0.8 then none
  else detectDimensionAfterCoverage a b c unit s

/-! ## Claim theorems: C4, C5, C8 -/

/-- C4 (code bug): for "0.001 m" with `lengthUnit = m`, `detectUnit` emits no
conversion at all: the guard `normalizedUnit === targetUnit` skips every match
whose source unit equals the target before the auto-sizer runs, although the
auto-sizer itself would produce exactly the advertised `1 mm` (and `2 km` for
"2000 m"), contradicting the claim and the README's "0.001m → 1mm" feature. -/
theorem detectUnit_same_unit_skipped :
    detectUnitCore "length" (1/1000) "m" { lengthUnit := some "m" } = none ∧
    getBestUnit ((1/1000 : ℚ)) "length" "m" = (1, "mm") ∧
    detectUnitCore "length" 2000 "m" { lengthUnit := some "m" } = none ∧
    getBestUnit (2000 : ℚ) "length" "m" = (2, "km") := by
  refine ⟨?_, ?_, ?_, ?_⟩ <;> with_unfolding_all rfl

/-- C5 (code bug): every "hop down" for a non-base default unit multiplies the
already-converted value by the target's per-base (per-meter, per-kilogram,
per-liter, per-m²) ratio instead of re-expressing the same physical quantity:
0.5 ft becomes 19.68505 in (not 6 in), 0.5 lb becomes 17.637 oz (not 8 oz),
0.5 gal becomes 1.05669 pt (not 2 qt / 4 pt), 0.5 ft² becomes 775 in²
(not 72 in²), 0.5 yd becomes 1.64042 ft (not 1.5 ft). -/
theorem getBestUnit_hop_scales_wrong :
    (getBestUnit (1/2) "length" "ft" = ((1/2) * 39.3701, "in") ∧
      ((1/2 : ℚ) * 39.3701 ≠ 12 * (1/2))) ∧
    (getBestUnit (1/2) "weight" "lb" = ((1/2) * 35.274, "oz") ∧
      ((1/2 : ℚ) * 35.274 ≠ 16 * (1/2))) ∧
    (getBestUnit (1/2) "volume" "gal" = ((1/2) * 2.11338, "pt") ∧
      ((1/2 : ℚ) * 2.11338 ≠ 4 * (1/2))) ∧
    (getBestUnit (1/2) "area" "ft2" = ((1/2) * 1550, "in2") ∧
      ((1/2 : ℚ) * 1550 ≠ 144 * (1/2))) ∧
    (getBestUnit (1/2) "length" "yd" = ((1/2) * 3.28084, "ft") ∧
      ((1/2 : ℚ) * 3.28084 ≠ 3 * (1/2))) := by
  refine ⟨⟨?_, by norm_num⟩, ⟨?_, by norm_num⟩, ⟨?_, by norm_num⟩,
    ⟨?_, by norm_num⟩, ⟨?_, by norm_num⟩⟩ <;> with_unfolding_all rfl

/-- C8 (confirmed): a dimension candidate is rejected whenever the matched
substring covers less than 80% of the trimmed selection and survives the
coverage check at exactly 80%; and an emitted triple carries the user's target
unit unless all three independently auto-sized axes prefer the same non-target
unit, in which case that unanimous unit is used and all three axes are
re-converted into it from the original values. -/
theorem detectDimension_spec (text fullMatch : String) (a b c : ℚ) (unit : String)
    (s : UserSettings) :
    ((fullMatch.length : ℚ) < (text.length : ℚ) * 0.8 →
      detectDimensionCore text fullMatch a b c unit s = none) ∧
    ((text.length : ℚ) * 0.8 ≤ (fullMatch.length : ℚ) →
      detectDimensionCore text fullMatch a b c unit s =
        detectDimensionAfterCoverage a b c unit s) ∧
    (∀ out, detectDimensionCore text fullMatch a b c unit s = some out →
      ∃ targetUnit, getDefaultTargetUnit (normalizeUnit unit) s = some targetUnit ∧
        out.unit = (
          let bl := getBestUnit ((convert a (normalizeUnit unit) targetUnit).getD 0) "length" targetUnit
          let bw := getBestUnit ((convert b (normalizeUnit unit) targetUnit).getD 0) "length" targetUnit
          let bh := getBestUnit ((convert c (normalizeUnit unit) targetUnit).getD 0) "length" targetUnit
          if bl.2 = bw.2 ∧ bw.2 = bh.2 ∧ bl.2 ≠ targetUnit then bl.2 else targetUnit) ∧
        out.l = round2 ((convert a (normalizeUnit unit) out.unit).getD 0) ∧
        out.w = round2 ((convert b (normalizeUnit unit) out.unit).getD 0) ∧
        out.h = round2 ((convert c (normalizeUnit unit) out.unit).getD 0)) := by
  refine ⟨?_, ?_, ?_⟩
  · intro h
    simp [detectDimensionCore, h]
  · intro h
    simp [detectDimensionCore, not_lt.mpr h]
  · intro out hout
    unfold detectDimensionCore at hout
    split at hout
    · exact absurd hout (by simp)
    unfold detectDimensionAfterCoverage at hout
    split at hout
    · exact absurd hout (by simp)
    split at hout
    · exact absurd hout (by simp)
    case _ targetUnit htarget =>
    split at hout
    · exact absurd hout (by simp)
    split at hout
    case _ ca cb cc hca hcb hcc =>
      unfold dimEmit at hout
      split at hout
      · exact absurd hout (by simp)
      case _ hsup =>
        obtain rfl := (Option.some.inj hout).symm
        refine ⟨targetUnit, htarget, ?_, ?_, ?_, ?_⟩
        · rw [hca, hcb, hcc]
          simp only [Option.getD_some]
          rfl
        · rfl
        · rfl
        · rfl
    · exact absurd hout (by simp)

/-- C8 witness: a 12-character match in a 16-character selection (75%) is
rejected; in a 15-character selection (exactly 80%) it survives the coverage
check and is emitted — re-expressed in the target unit `cm`. -/
theorem detectDimension_spec_witness :
    detectDimensionCore "2 x 3 x 4 mm EXX" "2 x 3 x 4 mm" 2 3 4 "mm"
      { lengthUnit := some "cm" } = none ∧
    detectDimensionCore "2 x 3 x 4 mm EX" "2 x 3 x 4 mm" 2 3 4 "mm"
      { lengthUnit := some "cm" } =
      detectDimensionAfterCoverage 2 3 4 "mm" { lengthUnit := some "cm" } ∧
    detectDimensionCore "2 x 3 x 4 mm EX" "2 x 3 x 4 mm" 2 3 4 "mm"
      { lengthUnit := some "cm" } = some ⟨0.2, 0.3, 0.4, "cm"⟩ := by
  refine ⟨(detectDimension_spec _ _ _ _ _ _ _).1 ?_,
    (detectDimension_spec _ _ _ _ _ _ _).2.1 ?_, ?_⟩
  · have h1 : ("2 x 3 x 4 mm" : String).length = 12 := by decide
    have h2 : ("2 x 3 x 4 mm EXX" : String).length = 16 := by decide
    rw [h1, h2]; norm_num
  · have h1 : ("2 x 3 x 4 mm" : String).length = 12 := by decide
    have h2 : ("2 x 3 x 4 mm EX" : String).length = 15 := by decide
    rw [h1, h2]; norm_num
  · with_unfolding_all rfl

/-! ## `CurrencyConverter.extractNumber` (`utils/currency-converter.js`) -/

/-- The apostrophe character (thousands separator). -/
def apostrophe : Char := Char.ofNat 39

/-- The numeric-token character class of `/(\d+[.,\d' \s]*)(?=\D|$)/`. -/
def isNumTokenChar (c : Char) : Bool :=
  c.isDigit || c = '.' || c = ',' || c = apostrophe || c = ' ' || c.isWhitespace

/-- JS `replace(/[ \']/g, '')` on the token. -/
def stripSpaceApo : List Char → List Char
  | [] => []
  | c :: cs => if c = ' ' ∨ c = apostrophe then stripSpaceApo cs else c :: stripSpaceApo cs

/-- JS `String.prototype.includes(ch)`. -/
def hasChar : List Char → Char → Bool
  | [], _ => false
  | c :: cs, ch => if c = ch then true else hasChar cs ch

/-- JS global `replace(/ch/g, '')`. -/
def removeChar : List Char → Char → List Char
  | [], _ => []
  | c :: cs, ch => if c = ch then removeChar cs ch else c :: removeChar cs ch

/-- Number of occurrences (the `dotCount` of `match(/\./g).length`). -/
def countChar : List Char → Char → ℕ
  | [], _ => 0
  | c :: cs, ch => (if c = ch then 1 else 0) + countChar cs ch

/-- JS `String.prototype.indexOf` (only called when the char is present). -/
def findIdxOf (ch : Char) : List Char → ℕ
  | [] => 0
  | c :: cs => if c = ch then 0 else findIdxOf ch cs + 1

/-- JS `replace(ch, r)` with a string pattern: first occurrence only. -/
def replaceFirst (ch r : Char) : List Char → List Char
  | [] => []
  | c :: cs => if c = ch then r :: cs else c :: replaceFirst ch r cs

/-- The test `cleanedString.match(/,\d{2}$/)`: the last three characters are a
comma followed by exactly two digits. -/
def commaTwoEnd (l : List Char) : Bool :=
  match l.reverse with
  | d2 :: d1 :: c :: _ => d2.isDigit && d1.isDigit && c = ','
  | _ => false

/-- The test `cleanedString.match(/^\d{4,}\.\d{3}$/)`: a single dot used as a
thousands separator (4+ digits, dot, exactly 3 digits). -/
def singleDotThousands (l : List Char) : Bool :=
  match l.drop (l.takeWhile Char.isDigit).length with
  | '.' :: b =>
      decide (4 ≤ (l.takeWhile Char.isDigit).length) && b.all Char.isDigit &&
        decide (b.length = 3)
  | _ => false

/-- `substring(0, lastDotIndex).replace(/\./g, '') + substring(lastDotIndex)`:
keep only the last dot. -/
def keepOnlyLastDot (l : List Char) : List Char :=
  match l.reverse.dropWhile (fun c => !(c = '.')) with
  | '.' :: pre =>
      removeChar pre.reverse '.' ++ '.' :: (l.reverse.takeWhile (fun c => !(c = '.'))).reverse
  | _ => l

/-- The separator-resolution stage of `extractNumber` (steps 3–5 of the spec):
both separators → later one is decimal; lone comma → decimal iff followed by
exactly two digits at the end; only dots → strip all but the last when
several, strip a single thousands dot when `\d{4,}\.\d{3}`. -/
def sepStage (tok : List Char) : List Char :=
  if hasChar tok '.' && hasChar tok ',' then
    if findIdxOf '.' tok < findIdxOf ',' tok then
      replaceFirst ',' '.' (removeChar tok '.')
    else removeChar tok ','
  else if hasChar tok ',' then
    if commaTwoEnd tok then replaceFirst ',' '.' tok
    else removeChar tok ','
  else if hasChar tok '.' then
    if 1 < countChar tok '.' then keepOnlyLastDot tok
    else if singleDotThousands tok then removeChar tok '.'
    else tok
  else tok

/-- Value of a digit run. -/
def digitsVal (l : List Char) : ℕ := l.foldl (fun n c => n * 10 + (c.toNat - 48)) 0

/-- JS `parseFloat` restricted to the strings the pipeline can produce
(digits and dots; parsing stops at the second dot, `NaN` → `none`). -/
def parseFloatL (tok : List Char) : Option ℚ :=
  match tok.takeWhile Char.isDigit, tok.drop (tok.takeWhile Char.isDigit).length with
  | [], '.' :: r2 =>
    match r2.takeWhile Char.isDigit with
    | [] => none
    | b => some ((digitsVal b : ℚ) / 10 ^ b.length)
  | [], _ => none
  | a, '.' :: r2 =>
    some ((digitsVal a : ℚ) + (digitsVal (r2.takeWhile Char.isDigit) : ℚ) /
      10 ^ (r2.takeWhile Char.isDigit).length)
  | a, _ => some ((digitsVal a : ℚ))

/-- `CurrencyConverter.extractNumber` on a char list: match the numeric token
(the regex takes the longest run of token characters from the first digit and
its lookahead `(?=\D|$)` is then automatically satisfied), strip spaces and
apostrophes, resolve separators, parse. -/
def extractNumberL (cs : List Char) : Option ℚ :=
  match cs.dropWhile (fun c => !c.isDigit) with
  | [] => none
  | c :: cs1 =>
    parseFloatL (sepStage (stripSpaceApo ((c :: cs1).takeWhile isNumTokenChar)))

/-- `CurrencyConverter.extractNumber`. -/
def extractNumber (s : String) : Option ℚ := extractNumberL s.data

/-! ### List lemmas for the separator rules -/

theorem digit_char_facts (c : Char) (h : c.isDigit = true) :
    isNumTokenChar c = true ∧ ¬(c = ' ' ∨ c = apostrophe) ∧ c ≠ ',' ∧ c ≠ '.' := by
  have h1 : c ≠ ' ' := by rintro rfl; exact absurd h (by decide)
  have h2 : c ≠ apostrophe := by rintro rfl; exact absurd h (by decide)
  have h3 : c ≠ ',' := by rintro rfl; exact absurd h (by decide)
  have h4 : c ≠ '.' := by rintro rfl; exact absurd h (by decide)
  exact ⟨by simp [isNumTokenChar, h], by simp [h1, h2], h3, h4⟩

theorem takeWhile_append_all (p : Char → Bool) (a b : List Char)
    (h : ∀ c ∈ a, p c = true) : (a ++ b).takeWhile p = a ++ b.takeWhile p := by
  induction a with
  | nil => simp
  | cons x xs ih =>
    have hx := h x (by simp)
    simp [List.takeWhile_cons, hx, ih (fun c hc => h c (by simp [hc]))]

theorem takeWhile_all (p : Char → Bool) (l : List Char)
    (h : ∀ c ∈ l, p c = true) : l.takeWhile p = l := by
  simpa using takeWhile_append_all p l [] h

theorem takeWhile_stop (p : Char → Bool) (a : List Char) (x : Char) (b : List Char)
    (ha : ∀ c ∈ a, p c = true) (hx : p x = false) :
    (a ++ x :: b).takeWhile p = a := by
  rw [takeWhile_append_all p a (x :: b) ha]
  simp [List.takeWhile_cons, hx]

theorem dropWhile_stop (p : Char → Bool) (a : List Char) (x : Char) (b : List Char)
    (ha : ∀ c ∈ a, p c = true) (hx : p x = false) :
    (a ++ x :: b).dropWhile p = x :: b := by
  induction a with
  | nil => simp [List.dropWhile_cons, hx]
  | cons y ys ih =>
    have hy := ha y (by simp)
    simp [List.dropWhile_cons, hy, ih (fun c hc => ha c (by simp [hc]))]

theorem stripSpaceApo_id (l : List Char) (h : ∀ c ∈ l, ¬(c = ' ' ∨ c = apostrophe)) :
    stripSpaceApo l = l := by
  induction l with
  | nil => rfl
  | cons x xs ih =>
    have hx := h x (by simp)
    simp [stripSpaceApo, hx, ih (fun c hc => h c (by simp [hc]))]

theorem hasChar_append (a b : List Char) (ch : Char) :
    hasChar (a ++ b) ch = (hasChar a ch || hasChar b ch) := by
  induction a with
  | nil => simp [hasChar]
  | cons x xs ih =>
    by_cases hx : x = ch <;> simp [hasChar, hx, ih]

theorem hasChar_eq_false (l : List Char) (ch : Char) (h : ∀ c ∈ l, c ≠ ch) :
    hasChar l ch = false := by
  induction l with
  | nil => rfl
  | cons x xs ih =>
    have hx := h x (by simp)
    simp [hasChar, hx, ih (fun c hc => h c (by simp [hc]))]

theorem removeChar_append (a b : List Char) (ch : Char) :
    removeChar (a ++ b) ch = removeChar a ch ++ removeChar b ch := by
  induction a with
  | nil => simp [removeChar]
  | cons x xs ih =>
    by_cases hx : x = ch <;> simp [removeChar, hx, ih]

theorem removeChar_id (l : List Char) (ch : Char) (h : ∀ c ∈ l, c ≠ ch) :
    removeChar l ch = l := by
  induction l with
  | nil => rfl
  | cons x xs ih =>
    have hx := h x (by simp)
    simp [removeChar, hx, ih (fun c hc => h c (by simp [hc]))]

theorem countChar_append (a b : List Char) (ch : Char) :
    countChar (a ++ b) ch = countChar a ch + countChar b ch := by
  induction a with
  | nil => simp [countChar]
  | cons x xs ih =>
    by_cases hx : x = ch
    · simp [countChar, hx, ih]
      omega
    · simp [countChar, hx, ih]

theorem countChar_eq_zero (l : List Char) (ch : Char) (h : ∀ c ∈ l, c ≠ ch) :
    countChar l ch = 0 := by
  induction l with
  | nil => rfl
  | cons x xs ih =>
    have hx := h x (by simp)
    simp [countChar, hx, ih (fun c hc => h c (by simp [hc]))]

theorem replaceFirst_at (a b : List Char) (ch r : Char) (h : ∀ c ∈ a, c ≠ ch) :
    replaceFirst ch r (a ++ ch :: b) = a ++ r :: b := by
  induction a with
  | nil => simp [replaceFirst]
  | cons x xs ih =>
    have hx := h x (by simp)
    simp [replaceFirst, hx, ih (fun c hc => h c (by simp [hc]))]

/-- Reduction of `extractNumberL` on a token that starts with a digit and is
entirely inside the numeric character class with no spaces or apostrophes:
only the separator stage and the parse remain. -/
theorem extractNumberL_token (d : Char) (t : List Char) (hdig : d.isDigit = true)
    (hall : ∀ c ∈ d :: t, isNumTokenChar c = true)
    (hsa : ∀ c ∈ d :: t, ¬(c = ' ' ∨ c = apostrophe)) :
    extractNumberL (d :: t) = parseFloatL (sepStage (d :: t)) := by
  unfold extractNumberL
  have h1 : (d :: t).dropWhile (fun c => !c.isDigit) = d :: t := by
    simp [List.dropWhile_cons, hdig]
  rw [h1]
  show parseFloatL (sepStage (stripSpaceApo ((d :: t).takeWhile isNumTokenChar))) = _
  rw [takeWhile_all _ _ hall, stripSpaceApo_id _ hsa]

/-- `commaTwoEnd` on `digits ++ ',' ++ digits` holds exactly when two digits
follow the comma. -/
theorem commaTwoEnd_eq (a b : List Char) (ha0 : a ≠ [])
    (hb : ∀ c ∈ b, c.isDigit = true) (hb0 : b ≠ []) :
    commaTwoEnd (a ++ (',' :: b)) = decide (b.length = 2) := by
  have hlen : b.length = b.reverse.length := (List.length_reverse b).symm
  have hrev : (a ++ (',' :: b)).reverse = b.reverse ++ (',' :: a.reverse) := by
    simp
  rcases h1 : b.reverse with _ | ⟨e1, rb1⟩
  · exact absurd (by simpa using congrArg List.reverse h1) hb0
  rcases h2 : rb1 with _ | ⟨e2, rb2⟩
  · -- one digit after the comma
    unfold commaTwoEnd
    rw [hrev, h1, h2]
    obtain ⟨e0, t0, h0⟩ := List.exists_cons_of_ne_nil
      (show a.reverse ≠ [] by simpa using ha0)
    rw [h0]
    have : (','.isDigit) = false := by decide
    simp [this, hlen, h1, h2]
  rcases h3 : rb2 with _ | ⟨e3, rb3⟩
  · -- exactly two digits after the comma
    unfold commaTwoEnd
    rw [hrev, h1, h2, h3]
    have he1 : e1.isDigit = true := hb e1 (by
      have : e1 ∈ b.reverse := by rw [h1]; simp
      exact List.mem_reverse.mp this)
    have he2 : e2.isDigit = true := hb e2 (by
      have : e2 ∈ b.reverse := by rw [h1, h2]; simp
      exact List.mem_reverse.mp this)
    simp [he1, he2, hlen, h1, h2, h3]
  · -- three or more digits after the comma
    unfold commaTwoEnd
    rw [hrev, h1, h2, h3]
    have he3 : e3.isDigit = true := hb e3 (by
      have : e3 ∈ b.reverse := by rw [h1, h2, h3]; simp
      exact List.mem_reverse.mp this)
    have hne : e3 ≠ ',' := (digit_char_facts e3 he3).2.2.1
    simp [hne, hlen, h1, h2, h3]

/-- Step 4 of the separator rules: a lone comma is the decimal separator iff
followed by exactly two digits at the end of the token. -/
theorem lone_comma_rule (a b : List Char)
    (ha : ∀ c ∈ a, c.isDigit = true) (hb : ∀ c ∈ b, c.isDigit = true)
    (ha0 : a ≠ []) (hb0 : b ≠ []) :
    extractNumberL (a ++ (',' :: b)) =
      if b.length = 2 then parseFloatL (a ++ ('.' :: b)) else parseFloatL (a ++ b) := by
  have hmem : ∀ c ∈ a ++ (',' :: b), c.isDigit = true ∨ c = ',' := by
    intro c hc
    rcases List.mem_append.mp hc with h | h
    · exact Or.inl (ha c h)
    · rcases List.mem_cons.mp h with rfl | h
      · exact Or.inr rfl
      · exact Or.inl (hb c h)
  obtain ⟨d, t, hdt⟩ := List.exists_cons_of_ne_nil ha0
  have hshape : a ++ (',' :: b) = d :: (t ++ (',' :: b)) := by rw [hdt]; simp
  have hdig : d.isDigit = true := ha d (by rw [hdt]; simp)
  have htok : extractNumberL (a ++ (',' :: b)) = parseFloatL (sepStage (a ++ (',' :: b))) := by
    rw [hshape]
    refine extractNumberL_token d _ hdig ?_ ?_
    · intro c hc
      rw [← hshape] at hc
      rcases hmem c hc with h | rfl
      · exact (digit_char_facts c h).1
      · decide
    · intro c hc
      rw [← hshape] at hc
      rcases hmem c hc with h | rfl
      · exact (digit_char_facts c h).2.1
      · decide
  rw [htok]
  have hnodot : hasChar (a ++ (',' :: b)) '.' = false := hasChar_eq_false _ _ (by
    intro c hc
    rcases hmem c hc with h | rfl
    · exact (digit_char_facts c h).2.2.2
    · decide)
  have hcomma : hasChar (a ++ (',' :: b)) ',' = true := by
    rw [hasChar_append]
    simp [hasChar]
  have hcte := commaTwoEnd_eq a b ha0 hb hb0
  have hstage : sepStage (a ++ (',' :: b)) =
      if b.length = 2 then replaceFirst ',' '.' (a ++ (',' :: b))
      else removeChar (a ++ (',' :: b)) ',' := by
    unfold sepStage
    rw [hnodot, hcomma, hcte]
    by_cases hlen2 : b.length = 2 <;> simp [hlen2]
  rw [hstage]
  by_cases hlen2 : b.length = 2
  · rw [if_pos hlen2, if_pos hlen2,
      replaceFirst_at a b ',' '.' (fun c hc => (digit_char_facts c (ha c hc)).2.2.1)]
  · rw [if_neg hlen2, if_neg hlen2, removeChar_append,
      removeChar_id a ',' (fun c hc => (digit_char_facts c (ha c hc)).2.2.1)]
    simp [removeChar, removeChar_id b ',' (fun c hc => (digit_char_facts c (hb c hc)).2.2.1)]

/-- Step 5a of the separator rules: a single dot is a thousands separator only
when preceded by four or more digits and followed by exactly three. -/
theorem single_dot_rule (a b : List Char)
    (ha : ∀ c ∈ a, c.isDigit = true) (hb : ∀ c ∈ b, c.isDigit = true)
    (ha0 : a ≠ []) (_hb0 : b ≠ []) :
    extractNumberL (a ++ ('.' :: b)) =
      if 4 ≤ a.length ∧ b.length = 3 then parseFloatL (a ++ b)
      else parseFloatL (a ++ ('.' :: b)) := by
  have hmem : ∀ c ∈ a ++ ('.' :: b), c.isDigit = true ∨ c = '.' := by
    intro c hc
    rcases List.mem_append.mp hc with h | h
    · exact Or.inl (ha c h)
    · rcases List.mem_cons.mp h with rfl | h
      · exact Or.inr rfl
      · exact Or.inl (hb c h)
  obtain ⟨d, t, hdt⟩ := List.exists_cons_of_ne_nil ha0
  have hshape : a ++ ('.' :: b) = d :: (t ++ ('.' :: b)) := by rw [hdt]; simp
  have hdig : d.isDigit = true := ha d (by rw [hdt]; simp)
  have htok : extractNumberL (a ++ ('.' :: b)) = parseFloatL (sepStage (a ++ ('.' :: b))) := by
    rw [hshape]
    refine extractNumberL_token d _ hdig ?_ ?_
    · intro c hc
      rw [← hshape] at hc
      rcases hmem c hc with h | rfl
      · exact (digit_char_facts c h).1
      · decide
    · intro c hc
      rw [← hshape] at hc
      rcases hmem c hc with h | rfl
      · exact (digit_char_facts c h).2.1
      · decide
  rw [htok]
  have hdot : hasChar (a ++ ('.' :: b)) '.' = true := by
    rw [hasChar_append]
    simp [hasChar]
  have hnocomma : hasChar (a ++ ('.' :: b)) ',' = false := hasChar_eq_false _ _ (by
    intro c hc
    rcases hmem c hc with h | rfl
    · exact (digit_char_facts c h).2.2.1
    · decide)
  have hcount : countChar (a ++ ('.' :: b)) '.' = 1 := by
    rw [countChar_append,
      countChar_eq_zero a '.' (fun c hc => (digit_char_facts c (ha c hc)).2.2.2)]
    simp [countChar,
      countChar_eq_zero b '.' (fun c hc => (digit_char_facts c (hb c hc)).2.2.2)]
  have htw : (a ++ ('.' :: b)).takeWhile Char.isDigit = a :=
    takeWhile_stop _ a '.' b ha (by decide)
  have hsdt : singleDotThousands (a ++ ('.' :: b)) =
      (decide (4 ≤ a.length) && decide (b.length = 3)) := by
    unfold singleDotThousands
    rw [htw, List.drop_left]
    simp [List.all_eq_true.mpr hb]
  have hstage : sepStage (a ++ ('.' :: b)) =
      if 4 ≤ a.length ∧ b.length = 3 then removeChar (a ++ ('.' :: b)) '.'
      else a ++ ('.' :: b) := by
    unfold sepStage
    rw [hdot, hnocomma, hcount, hsdt]
    by_cases h4 : 4 ≤ a.length <;> by_cases h3 : b.length = 3 <;> simp [h4, h3]
  rw [hstage]
  by_cases hcond : 4 ≤ a.length ∧ b.length = 3
  · rw [if_pos hcond, if_pos hcond, removeChar_append,
      removeChar_id a '.' (fun c hc => (digit_char_facts c (ha c hc)).2.2.2)]
    simp [removeChar, removeChar_id b '.' (fun c hc => (digit_char_facts c (hb c hc)).2.2.2)]
  · rw [if_neg hcond, if_neg hcond]

/-- Step 5b of the separator rules: with several dots, all but the last are
stripped. -/
theorem multi_dot_rule (a b c2 : List Char)
    (ha : ∀ c ∈ a, c.isDigit = true) (hb : ∀ c ∈ b, c.isDigit = true)
    (hc2 : ∀ c ∈ c2, c.isDigit = true) (ha0 : a ≠ []) :
    extractNumberL ((a ++ ('.' :: b)) ++ ('.' :: c2)) =
      parseFloatL ((a ++ b) ++ ('.' :: c2)) := by
  have hmem : ∀ c ∈ (a ++ ('.' :: b)) ++ ('.' :: c2), c.isDigit = true ∨ c = '.' := by
    intro c hc
    rcases List.mem_append.mp hc with h | h
    · rcases List.mem_append.mp h with h | h
      · exact Or.inl (ha c h)
      · rcases List.mem_cons.mp h with rfl | h
        · exact Or.inr rfl
        · exact Or.inl (hb c h)
    · rcases List.mem_cons.mp h with rfl | h
      · exact Or.inr rfl
      · exact Or.inl (hc2 c h)
  obtain ⟨d, t, hdt⟩ := List.exists_cons_of_ne_nil ha0
  have hshape : (a ++ ('.' :: b)) ++ ('.' :: c2) = d :: ((t ++ ('.' :: b)) ++ ('.' :: c2)) := by
    rw [hdt]; simp
  have hdig : d.isDigit = true := ha d (by rw [hdt]; simp)
  have htok : extractNumberL ((a ++ ('.' :: b)) ++ ('.' :: c2)) =
      parseFloatL (sepStage ((a ++ ('.' :: b)) ++ ('.' :: c2))) := by
    rw [hshape]
    refine extractNumberL_token d _ hdig ?_ ?_
    · intro c hc
      rw [← hshape] at hc
      rcases hmem c hc with h | rfl
      · exact (digit_char_facts c h).1
      · decide
    · intro c hc
      rw [← hshape] at hc
      rcases hmem c hc with h | rfl
      · exact (digit_char_facts c h).2.1
      · decide
  rw [htok]
  have hdot : hasChar ((a ++ ('.' :: b)) ++ ('.' :: c2)) '.' = true := by
    rw [hasChar_append, hasChar_append]
    simp [hasChar]
  have hnocomma : hasChar ((a ++ ('.' :: b)) ++ ('.' :: c2)) ',' = false :=
    hasChar_eq_false _ _ (by
      intro c hc
      rcases hmem c hc with h | rfl
      · exact (digit_char_facts c h).2.2.1
      · decide)
  have hcount : countChar ((a ++ ('.' :: b)) ++ ('.' :: c2)) '.' = 2 := by
    rw [countChar_append, countChar_append,
      countChar_eq_zero a '.' (fun c hc => (digit_char_facts c (ha c hc)).2.2.2)]
    simp [countChar,
      countChar_eq_zero b '.' (fun c hc => (digit_char_facts c (hb c hc)).2.2.2),
      countChar_eq_zero c2 '.' (fun c hc => (digit_char_facts c (hc2 c hc)).2.2.2)]
  have hstage : sepStage ((a ++ ('.' :: b)) ++ ('.' :: c2)) =
      keepOnlyLastDot ((a ++ ('.' :: b)) ++ ('.' :: c2)) := by
    unfold sepStage
    rw [hdot, hnocomma, hcount]
    simp
  rw [hstage]
  have hrev : ((a ++ ('.' :: b)) ++ ('.' :: c2)).reverse =
      c2.reverse ++ ('.' :: (b.reverse ++ ('.' :: a.reverse))) := by
    simp
  have hdigrev : ∀ x ∈ c2.reverse, (!(x = '.')) = true := by
    intro x hx
    have := (digit_char_facts x (hc2 x (List.mem_reverse.mp hx))).2.2.2
    simp [this]
  have hdw : ((a ++ ('.' :: b)) ++ ('.' :: c2)).reverse.dropWhile (fun x => !(x = '.')) =
      '.' :: (b.reverse ++ ('.' :: a.reverse)) := by
    rw [hrev]
    exact dropWhile_stop _ _ _ _ hdigrev (by decide)
  have htw : ((a ++ ('.' :: b)) ++ ('.' :: c2)).reverse.takeWhile (fun x => !(x = '.')) =
      c2.reverse := by
    rw [hrev]
    exact takeWhile_stop _ _ _ _ hdigrev (by decide)
  have hk : keepOnlyLastDot ((a ++ ('.' :: b)) ++ ('.' :: c2)) = (a ++ b) ++ ('.' :: c2) := by
    unfold keepOnlyLastDot
    rw [hdw, htw]
    have hprev : (b.reverse ++ ('.' :: a.reverse)).reverse = a ++ ('.' :: b) := by simp
    simp only [hprev, List.reverse_reverse]
    rw [removeChar_append,
      removeChar_id a '.' (fun c hc => (digit_char_facts c (ha c hc)).2.2.2)]
    simp [removeChar, removeChar_id b '.' (fun c hc => (digit_char_facts c (hb c hc)).2.2.2)]
  rw [hk]

/-- C9 (confirmed): `extractNumber` implements the locale separator rules — a
lone comma is decimal iff followed by exactly two digits at the end of the
token, else stripped as thousands; with only dots, all dots but the last are
stripped when there are several, and a single dot is stripped only when
preceded by four or more digits and followed by exactly three; hence
`1,234 → 1234`, `1,23 → 1.23`, `1.234 → 1.234`, `1.234.567 → 1234.567`. -/
theorem extractNumber_separator_rules :
    (∀ a b : List Char, (∀ c ∈ a, c.isDigit = true) → (∀ c ∈ b, c.isDigit = true) →
        a ≠ [] → b ≠ [] →
        extractNumberL (a ++ (',' :: b)) =
          if b.length = 2 then parseFloatL (a ++ ('.' :: b)) else parseFloatL (a ++ b)) ∧
    (∀ a b : List Char, (∀ c ∈ a, c.isDigit = true) → (∀ c ∈ b, c.isDigit = true) →
        a ≠ [] → b ≠ [] →
        extractNumberL (a ++ ('.' :: b)) =
          if 4 ≤ a.length ∧ b.length = 3 then parseFloatL (a ++ b)
          else parseFloatL (a ++ ('.' :: b))) ∧
    (∀ a b c2 : List Char, (∀ c ∈ a, c.isDigit = true) → (∀ c ∈ b, c.isDigit = true) →
        (∀ c ∈ c2, c.isDigit = true) → a ≠ [] →
        extractNumberL ((a ++ ('.' :: b)) ++ ('.' :: c2)) =
          parseFloatL ((a ++ b) ++ ('.' :: c2))) ∧
    extractNumber "1,234" = some 1234 ∧
    extractNumber "1,23" = some 1.23 ∧
    extractNumber "1.234" = some 1.234 ∧
    extractNumber "1.234.567" = some 1234.567 :=
  ⟨lone_comma_rule, single_dot_rule, multi_dot_rule,
    by with_unfolding_all rfl, by with_unfolding_all rfl,
    by with_unfolding_all rfl, by with_unfolding_all rfl⟩

/-- C9 witness: the comma rule applied to `1,23` (decimal) and the dot rule
applied to `1.234` (decimal, fewer than four leading digits). -/
theorem extractNumber_separator_rules_witness :
    extractNumberL (['1'] ++ (',' :: ['2', '3'])) =
      parseFloatL (['1'] ++ ('.' :: ['2', '3'])) ∧
    extractNumberL (['1'] ++ ('.' :: ['2', '3', '4'])) =
      parseFloatL (['1'] ++ ('.' :: ['2', '3', '4'])) := by
  constructor
  · have h := extractNumber_separator_rules.1 ['1'] ['2', '3']
      (by decide) (by decide) (by decide) (by decide)
    simpa using h
  · have h := extractNumber_separator_rules.2.1 ['1'] ['2', '3', '4']
      (by decide) (by decide) (by decide) (by decide)
    simpa using h

/-! ### Currency rate service (`src/README.md` lines 182–924, the newer
`CurrencyRateService` embedded in the background-worker source).

Time is modelled as ℤ milliseconds; `now` stands for `_getCurrentTime()`.
The two HTTP APIs are modelled as inputs of type
`Except String (List (String × ℚ))`: `Except.ok rates` is a successful
response body (primary rates already key-normalized to lowercase, as
`fetchRatesFromPrimaryAPI` does), `Except.error` any thrown failure
(network, `!response.ok`, bad format).  Invoking an API counts as one
network fetch whether or not it succeeds.  A JS result object that omits
the `stale` field (undefined, falsy) is modelled with `stale := false`. -/

def jsToUpper (s : String) : String := String.mk (s.data.map Char.toUpper)

/-- Shape of the resolved value of `getCurrencyRate`. -/
structure RateResult where
  rate : ℚ
  usedFallback : Bool
  fromCache : Bool
  stale : Bool
deriving DecidableEq

/-- One entry of `currencyRatesCache` (per base currency). -/
structure CacheEntry where
  rates : List (String × ℚ)
  timestamp : ℤ
  usedFallback : Bool

/-- Service configuration and clock (constructor fields and `Date.now()`). -/
structure RateSvc where
  cacheTimeout : ℤ
  inactivityThreshold : ℤ
  staleThreshold : ℤ
  refreshThreshold : ℤ
  lastUserActivity : ℤ
  now : ℤ

/-- `isUserActive`: `(now - lastUserActivity) < inactivityThreshold`. -/
def isUserActive (s : RateSvc) : Bool :=
  decide (s.now - s.lastUserActivity < s.inactivityThreshold)

/-- `isCacheValid`: null‑guard, then `cacheAge < cacheTimeout`. -/
def isCacheValid (s : RateSvc) (cached : Option CacheEntry) : Bool :=
  match cached with
  | none => false
  | some c => decide (s.now - c.timestamp < s.cacheTimeout)

/-- `shouldRefreshCache`: missing entry → true; inactive user → false;
otherwise `cacheAge >= cacheTimeout`. -/
def shouldRefreshCache (s : RateSvc) (cached : Option CacheEntry) : Bool :=
  match cached with
  | none => true
  | some c =>
    if isUserActive s = false then false
    else decide (s.cacheTimeout ≤ s.now - c.timestamp)

/-- `cached.rates[toLower]` guarded by the `cached && cached.rates` null
checks (the `staleRate` computation). -/
def cachedRate (cached : Option CacheEntry) (toLower : String) : Option ℚ :=
  match cached with
  | none => none
  | some c => look c.rates toLower

/-- `cached.usedFallback || false`. -/
def cachedUsedFallback (cached : Option CacheEntry) : Bool :=
  match cached with
  | none => false
  | some c => c.usedFallback

/-- JS `rates[k1] || rates[k2]` followed by the `!== undefined` test: a
present but zero (falsy) value under `k1` falls through to `k2`. -/
def jsOrLookup (rates : List (String × ℚ)) (k1 k2 : String) : Option ℚ :=
  match look rates k1 with
  | some v => if v = 0 then look rates k2 else some v
  | none => look rates k2

/-- Whether the primary try-block finds a rate:
`rates[toLower] || rates[toLower.toUpperCase()]` is defined. -/
def primaryHas (primary : Except String (List (String × ℚ))) (toLower : String) : Bool :=
  match primary with
  | Except.ok rates => (jsOrLookup rates toLower (jsToUpper toLower)).isSome
  | Except.error _ => false

/-- Whether the fallback try-block finds a rate: `rates[toLower]` is defined. -/
def fallbackHas (fallback : Except String (List (String × ℚ))) (toLower : String) : Bool :=
  match fallback with
  | Except.ok rates => (look rates toLower).isSome
  | Except.error _ => false

/-- Last-resort branch of `_fetchCurrencyRate`: serve stale cache if it has
the target rate, else reject with `'Currency rate unavailable'`.  The second
component counts network fetches performed so far. -/
def staleStage (cached : Option CacheEntry) (toLower : String) (n : ℕ) :
    Except String RateResult × ℕ :=
  match cachedRate cached toLower with
  | some r => (Except.ok ⟨r, cachedUsedFallback cached, true, true⟩, n)
  | none => (Except.error "Currency rate unavailable", n)

/-- The `catch (primaryError)` block: one fallback-API fetch, then
`rates[toLower]`, then the stale/last-resort stage. -/
def fallbackStage (cached : Option CacheEntry)
    (fallback : Except String (List (String × ℚ))) (toLower : String) (n : ℕ) :
    Except String RateResult × ℕ :=
  match fallback with
  | Except.ok rates =>
    match look rates toLower with
    | some r => (Except.ok ⟨r, true, false, false⟩, n + 1)
    | none => staleStage cached toLower (n + 1)
  | Except.error _ => staleStage cached toLower (n + 1)

/-- `_fetchCurrencyRate(fromLower, toLower)` with the cache entry for the
base currency and both API outcomes supplied as inputs; returns the
settled outcome paired with the number of network fetches performed. -/
def fetchCurrencyRate (s : RateSvc) (cached : Option CacheEntry)
    (primary fallback : Except String (List (String × ℚ))) (toLower : String) :
    Except String RateResult × ℕ :=
  if isCacheValid s cached && (cachedRate cached toLower).isSome then
    (Except.ok ⟨(cachedRate cached toLower).getD 0, cachedUsedFallback cached, true, false⟩, 0)
  else if !(shouldRefreshCache s cached) && (cachedRate cached toLower).isSome then
    (Except.ok ⟨(cachedRate cached toLower).getD 0, cachedUsedFallback cached, true, true⟩, 0)
  else
    match primary with
    | Except.ok rates =>
      match jsOrLookup rates toLower (jsToUpper toLower) with
      | some r => (Except.ok ⟨r, false, false, false⟩, 1)
      | none => fallbackStage cached fallback toLower 1
    | Except.error _ => fallbackStage cached fallback toLower 1

/-- `warmCache`: zero fetches when a valid `usd` entry exists, else one
primary fetch (counted even when it fails — the error is caught). -/
def warmCacheFetches (s : RateSvc) (cachedUsd : Option CacheEntry) : ℕ :=
  if isCacheValid s cachedUsd then 0 else 1

/-- `prefetchIfStale`: activity gate, then warm on missing cache, else one
background primary fetch iff `staleThreshold < cacheAge < cacheTimeout`
(both strict). -/
def prefetchIfStaleFetches (s : RateSvc) (cachedUsd : Option CacheEntry) : ℕ :=
  if isUserActive s = false then 0
  else
    match cachedUsd with
    | none => warmCacheFetches s none
    | some c =>
      if s.staleThreshold < s.now - c.timestamp ∧ s.now - c.timestamp < s.cacheTimeout
      then 1 else 0

/-- `refreshCacheIfNeeded`: activity gate, then one primary fetch per cached
base currency whose age exceeds `refreshThreshold` (strict). -/
def refreshCacheIfNeededFetches (s : RateSvc) (cache : List (String × CacheEntry)) : ℕ :=
  if isUserActive s = false then 0
  else (cache.filter (fun p => decide (s.refreshThreshold < s.now - p.2.timestamp))).length

/-! ### In-flight deduplication in `getCurrencyRate`
(`src/README.md` lines 344–365; the same code at `src/unnamed/part_001`
lines 91–112).

`getCurrencyRate` lowercases both codes, builds `pairKey = fromLower + '-'
+ toLower`, and either awaits an existing `inFlightRequests` promise or
installs a fresh `_fetchCurrencyRate` promise under that key, deleting it
in `finally`.  The promise mechanics are modelled by a step relation:
`arrive` is a call reaching the dedup check (joining the waiter list of the
in-flight entry, or installing a new entry and starting one fetch
computation), and `settle` is the shared promise settling with outcome `o`
(every waiter receives the same settled outcome — resolution or rejection —
and the `finally` handler deletes the entry). -/

/-- `` `${from.toLowerCase()}-${to.toLowerCase()}` ``. -/
def pairKey (f t : String) : String := jsToLower f ++ "-" ++ jsToLower t

/-- `Map.set`: overwrite the binding of `k`. -/
def setKey {α : Type} (m : List (String × α)) (k : String) (v : α) :
    List (String × α) :=
  (k, v) :: m.filter (fun p => decide (p.1 ≠ k))

/-- `Map.delete`. -/
def eraseKey {α : Type} (m : List (String × α)) (k : String) :
    List (String × α) :=
  m.filter (fun p => decide (p.1 ≠ k))

/-- Increment a per-key counter (missing key counts as 0). -/
def bumpKey (m : List (String × ℕ)) (k : String) : List (String × ℕ) :=
  setKey m k ((look m k).getD 0 + 1)

/-- State of the dedup machinery: `inFlight` maps a pair key to the callers
awaiting its promise, `fetchesStarted` counts `_fetchCurrencyRate`
computations started per key, `delivered` records which caller received
which settled outcome. -/
structure BurstState where
  inFlight : List (String × List ℕ)
  fetchesStarted : List (String × ℕ)
  delivered : List (ℕ × Except String RateResult)

def emptyBurst : BurstState := ⟨[], [], []⟩

/-- A call `getCurrencyRate(f, t)` by caller `c` reaching the dedup check. -/
def arrive (st : BurstState) (f t : String) (c : ℕ) : BurstState :=
  match look st.inFlight (pairKey f t) with
  | some ws => ⟨setKey st.inFlight (pairKey f t) (ws ++ [c]), st.fetchesStarted, st.delivered⟩
  | none => ⟨setKey st.inFlight (pairKey f t) [c],
      bumpKey st.fetchesStarted (pairKey f t), st.delivered⟩

/-- The in-flight promise for key `k` settles with outcome `o`: every waiter
receives `o`, and the `finally` handler removes the entry. -/
def settle (st : BurstState) (k : String) (o : Except String RateResult) : BurstState :=
  match look st.inFlight k with
  | some ws => ⟨eraseKey st.inFlight k, st.fetchesStarted,
      st.delivered ++ ws.map (fun c => (c, o))⟩
  | none => st

/-- A burst of calls processed in arrival order. -/
def burstRun : BurstState → List (String × String × ℕ) → BurstState
  | st, [] => st
  | st, r :: rest => burstRun (arrive st r.1 r.2.1 r.2.2) rest

theorem look_setKey_self {α : Type} (m : List (String × α)) (k : String) (v : α) :
    look (setKey m k v) k = some v := by
  simp [setKey, look]

theorem look_eraseKey_self {α : Type} (m : List (String × α)) (k : String) :
    look (eraseKey m k) k = none := by
  induction m with
  | nil => rfl
  | cons p t ih =>
    by_cases h : p.1 = k
    · simpa [eraseKey, List.filter, h] using ih
    · have hne : k ≠ p.1 := fun hkp => h hkp.symm
      simp only [eraseKey, decide_not] at ih ⊢
      rw [List.filter_cons_of_pos (by simpa using h)]
      simp [look, hne, ih]

theorem burstRun_join (reqs : List (String × String × ℕ)) :
    ∀ (st : BurstState) (k : String) (ws : List ℕ),
      (∀ r ∈ reqs, pairKey r.1 r.2.1 = k) →
      look st.inFlight k = some ws →
      look (burstRun st reqs).inFlight k = some (ws ++ reqs.map (fun r => r.2.2)) ∧
      (burstRun st reqs).fetchesStarted = st.fetchesStarted ∧
      (burstRun st reqs).delivered = st.delivered := by
  induction reqs with
  | nil =>
    intro st k ws _ hw
    exact ⟨by simpa [burstRun] using hw, rfl, rfl⟩
  | cons r rest ih =>
    intro st k ws hk hw
    have hkr : pairKey r.1 r.2.1 = k := hk r (by simp)
    have hstep : arrive st r.1 r.2.1 r.2.2 =
        ⟨setKey st.inFlight k (ws ++ [r.2.2]), st.fetchesStarted, st.delivered⟩ := by
      unfold arrive
      rw [hkr, hw]
    have hrun : burstRun st (r :: rest) =
        burstRun ⟨setKey st.inFlight k (ws ++ [r.2.2]), st.fetchesStarted, st.delivered⟩
          rest := by
      show burstRun (arrive st r.1 r.2.1 r.2.2) rest = _
      rw [hstep]
    rw [hrun]
    have hrest := ih ⟨setKey st.inFlight k (ws ++ [r.2.2]), st.fetchesStarted, st.delivered⟩
      k (ws ++ [r.2.2]) (fun r2 hr2 => hk r2 (by simp [hr2])) (look_setKey_self _ _ _)
    refine ⟨?_, hrest.2.1, hrest.2.2⟩
    rw [hrest.1]
    simp

/-- C1 (confirmed): for a burst of `getCurrencyRate` calls whose codes all
lowercase to the same pair key, only the first call starts a fetch
computation (the in-flight map records exactly one start for the key and
holds all callers of the burst); when the shared promise settles with any
outcome `o` — resolution or rejection — every caller of the burst receives
that same structurally-equal outcome, and the in-flight entry is removed. -/
theorem inflight_dedup (reqs : List (String × String × ℕ)) (f t : String)
    (o : Except String RateResult)
    (hk : ∀ r ∈ reqs, pairKey r.1 r.2.1 = pairKey f t) (hne : reqs ≠ []) :
    look (burstRun emptyBurst reqs).inFlight (pairKey f t) =
      some (reqs.map (fun r => r.2.2)) ∧
    look (burstRun emptyBurst reqs).fetchesStarted (pairKey f t) = some 1 ∧
    (settle (burstRun emptyBurst reqs) (pairKey f t) o).delivered =
      reqs.map (fun r => (r.2.2, o)) ∧
    look (settle (burstRun emptyBurst reqs) (pairKey f t) o).inFlight (pairKey f t) =
      none := by
  obtain ⟨r0, rest, rfl⟩ := List.exists_cons_of_ne_nil hne
  have hk0 : pairKey r0.1 r0.2.1 = pairKey f t := hk r0 (by simp)
  have h1 : arrive emptyBurst r0.1 r0.2.1 r0.2.2 =
      ⟨[(pairKey f t, [r0.2.2])], [(pairKey f t, 1)], []⟩ := by
    unfold arrive
    rw [hk0]
    rfl
  have hrun : burstRun emptyBurst (r0 :: rest) =
      burstRun ⟨[(pairKey f t, [r0.2.2])], [(pairKey f t, 1)], []⟩ rest := by
    show burstRun (arrive emptyBurst r0.1 r0.2.1 r0.2.2) rest = _
    rw [h1]
  have hjoin := burstRun_join rest ⟨[(pairKey f t, [r0.2.2])], [(pairKey f t, 1)], []⟩
    (pairKey f t) [r0.2.2] (fun r hr => hk r (by simp [hr])) (by simp [look])
  have hin : look (burstRun emptyBurst (r0 :: rest)).inFlight (pairKey f t) =
      some ((r0 :: rest).map (fun r => r.2.2)) := by
    rw [hrun, hjoin.1]
    simp
  refine ⟨hin, ?_, ?_, ?_⟩
  · rw [hrun, hjoin.2.1]
    simp [look]
  · unfold settle
    rw [hin]
    have hde : (burstRun emptyBurst (r0 :: rest)).delivered = [] := by
      rw [hrun, hjoin.2.2]
    simp [hde, Function.comp]
  · unfold settle
    rw [hin]
    simp [look_eraseKey_self]

/-- C1 witness: three concurrent mixed-case calls for USD→EUR, settled with
a rejection: one fetch started, all three callers get the same rejection. -/
theorem inflight_dedup_witness :
    look (burstRun emptyBurst
        [("USD", "eur", 0), ("usd", "EUR", 1), ("Usd", "EuR", 2)]).fetchesStarted
      (pairKey "usd" "eur") = some 1 ∧
    (settle (burstRun emptyBurst
          [("USD", "eur", 0), ("usd", "EUR", 1), ("Usd", "EuR", 2)])
        (pairKey "usd" "eur") (Except.error "network down")).delivered =
      [(0, Except.error "network down"), (1, Except.error "network down"),
        (2, Except.error "network down")] := by
  have h := inflight_dedup [("USD", "eur", 0), ("usd", "EUR", 1), ("Usd", "EuR", 2)]
    "usd" "eur" (Except.error "network down") (by decide) (by decide)
  exact ⟨h.2.1, h.2.2.1⟩

/-- C2 counterexample inputs: fresh service, no cache. -/
def svcNow : RateSvc := ⟨3600000, 300000, 2700000, 3000000, 0, 0⟩

/-- C2 counterexample: the primary response body contains the target rate
(`eur ↦ 0`), the claim therefore forbids the fatal rejection, yet the code
rejects with `'Currency rate unavailable'`: the `rates[toLower] ||
rates[toLower.toUpperCase()]` lookup drops the falsy rate `0` (and the
uppercase probe misses because primary keys are lowercased), so the primary
try-block throws and the dead fallback plus empty cache leave nothing. -/
theorem currency_unavailable_counterexample :
    look [("eur", (0 : ℚ))] "eur" = some 0 ∧
    (fetchCurrencyRate svcNow none (Except.ok [("eur", (0 : ℚ))])
        (Except.error "network down") "eur").1 =
      Except.error "Currency rate unavailable" := by
  constructor
  · with_unfolding_all rfl
  · with_unfolding_all rfl

/-- C2 (corrected): `_fetchCurrencyRate` rejects with
`'Currency rate unavailable'` iff the cached entry for the base has no rate
under the lowercase target key, the primary try-block finds no rate under
`rates[toLower] || rates[toLower.toUpperCase()]` (so a falsy rate `0` from
the primary counts as missing), and the fallback try-block finds no rate
under `rates[toLower]`; and whenever the cache entry is expired but holds
the target rate while neither API yields one, the call resolves with that
rate flagged `fromCache = true`, `stale = true`. -/
theorem currency_unavailable_amended :
    (∀ (s : RateSvc) (cached : Option CacheEntry)
        (primary fallback : Except String (List (String × ℚ))) (toLower : String),
        (fetchCurrencyRate s cached primary fallback toLower).1 =
            Except.error "Currency rate unavailable" ↔
          cachedRate cached toLower = none ∧ primaryHas primary toLower = false ∧
            fallbackHas fallback toLower = false) ∧
    (∀ (s : RateSvc) (c : CacheEntry)
        (primary fallback : Except String (List (String × ℚ))) (toLower : String) (r : ℚ),
        isCacheValid s (some c) = false → look c.rates toLower = some r →
        primaryHas primary toLower = false → fallbackHas fallback toLower = false →
        (fetchCurrencyRate s (some c) primary fallback toLower).1 =
          Except.ok ⟨r, c.usedFallback, true, true⟩) := by
  constructor
  · intro s cached primary fallback toLower
    unfold fetchCurrencyRate fallbackStage staleStage
    rcases hcr : cachedRate cached toLower with _ | r
    · rcases primary with e | rates
      · rcases fallback with e2 | rates2
        · simp [hcr, primaryHas, fallbackHas]
        · rcases hlf : look rates2 toLower with _ | r2 <;>
            simp [hcr, primaryHas, fallbackHas, hlf]
      · rcases hjo : jsOrLookup rates toLower (jsToUpper toLower) with _ | r1
        · rcases fallback with e2 | rates2
          · simp [hcr, primaryHas, fallbackHas, hjo]
          · rcases hlf : look rates2 toLower with _ | r2 <;>
              simp [hcr, primaryHas, fallbackHas, hjo, hlf]
        · simp [hcr, primaryHas, hjo]
    · cases hv : isCacheValid s cached
      · cases hs : shouldRefreshCache s cached
        · simp [hv, hs, hcr]
        · rcases primary with e | rates
          · rcases fallback with e2 | rates2
            · simp [hv, hs, hcr]
            · rcases hlf : look rates2 toLower with _ | r2 <;> simp [hv, hs, hcr, hlf]
          · rcases hjo : jsOrLookup rates toLower (jsToUpper toLower) with _ | r1
            · rcases fallback with e2 | rates2
              · simp [hv, hs, hcr, hjo]
              · rcases hlf : look rates2 toLower with _ | r2 <;>
                  simp [hv, hs, hcr, hjo, hlf]
            · simp [hv, hs, hcr, hjo]
      · simp [hv, hcr]
  · intro s c primary fallback toLower r hvalid hrate hph hfh
    have hcr : cachedRate (some c) toLower = some r := by simpa [cachedRate] using hrate
    unfold fetchCurrencyRate
    cases hs : shouldRefreshCache s (some c)
    · simp [hvalid, hcr, hs, cachedUsedFallback]
    · rcases primary with e | rates
      · rcases fallback with e2 | rates2
        · simp [hvalid, hcr, hs, fallbackStage, staleStage, cachedUsedFallback]
        · have hlf : look rates2 toLower = none := by
            rcases hlf : look rates2 toLower with _ | r2
            · rfl
            · simp only [fallbackHas, hlf] at hfh
              simp at hfh
          simp [hvalid, hcr, hs, fallbackStage, staleStage, cachedUsedFallback, hlf]
      · have hjo : jsOrLookup rates toLower (jsToUpper toLower) = none := by
          rcases hjo : jsOrLookup rates toLower (jsToUpper toLower) with _ | r1
          · rfl
          · simp only [primaryHas, hjo] at hph
            simp at hph
        rcases fallback with e2 | rates2
        · simp [hvalid, hcr, hs, hjo, fallbackStage, staleStage, cachedUsedFallback]
        · have hlf : look rates2 toLower = none := by
            rcases hlf : look rates2 toLower with _ | r2
            · rfl
            · simp only [fallbackHas, hlf] at hfh
              simp at hfh
          simp [hvalid, hcr, hs, hjo, fallbackStage, staleStage, cachedUsedFallback, hlf]

/-- C2 witness inputs: an expired cache entry holding `eur ↦ 4/5` and a
service whose clock sits one hour past the entry. -/
def staleEntry : CacheEntry := ⟨[("eur", (4/5 : ℚ))], 0, false⟩

def svcLate : RateSvc := ⟨3600000, 300000, 2700000, 3000000, 7200000, 7200000⟩

/-- C2 witness: both APIs dead, expired cache holds the target rate — the
call resolves with the stale rate instead of rejecting. -/
theorem currency_unavailable_witness :
    (fetchCurrencyRate svcLate (some staleEntry) (Except.error "primary down")
        (Except.error "fallback down") "eur").1 =
      Except.ok ⟨4/5, false, true, true⟩ :=
  currency_unavailable_amended.2 svcLate staleEntry (Except.error "primary down")
    (Except.error "fallback down") "eur" (4/5) (by decide)
    (by with_unfolding_all rfl) rfl rfl

/-- C3 (confirmed): once `now - lastUserActivity` reaches
`inactivityThreshold`, `shouldRefreshCache` is false on every non-null
entry, `prefetchIfStale` and `refreshCacheIfNeeded` perform zero fetches,
`warmCache` performs zero fetches whenever the `usd` entry is valid, and a
`getCurrencyRate` call whose base entry holds the target rate is served
from cache with zero fetches — flagged stale exactly when the entry is
expired. -/
theorem inactivity_gate (s : RateSvc) (hinact : isUserActive s = false) :
    (∀ c : CacheEntry, shouldRefreshCache s (some c) = false) ∧
    (∀ cachedUsd : Option CacheEntry, prefetchIfStaleFetches s cachedUsd = 0) ∧
    (∀ cache : List (String × CacheEntry), refreshCacheIfNeededFetches s cache = 0) ∧
    (∀ cachedUsd : Option CacheEntry, isCacheValid s cachedUsd = true →
        warmCacheFetches s cachedUsd = 0) ∧
    (∀ (c : CacheEntry) (primary fallback : Except String (List (String × ℚ)))
        (toLower : String) (r : ℚ), look c.rates toLower = some r →
        fetchCurrencyRate s (some c) primary fallback toLower =
          (Except.ok ⟨r, c.usedFallback, true, !(isCacheValid s (some c))⟩, 0)) := by
  refine ⟨?_, ?_, ?_, ?_, ?_⟩
  · intro c
    unfold shouldRefreshCache
    rw [hinact]
    simp
  · intro cachedUsd
    unfold prefetchIfStaleFetches
    rw [hinact]
    simp
  · intro cache
    unfold refreshCacheIfNeededFetches
    rw [hinact]
    simp
  · intro cachedUsd hvalid
    unfold warmCacheFetches
    rw [hvalid]
    simp
  · intro c primary fallback toLower r hrate
    have hcr : cachedRate (some c) toLower = some r := by simpa [cachedRate] using hrate
    have hsr : shouldRefreshCache s (some c) = false := by
      unfold shouldRefreshCache
      rw [hinact]
      simp
    unfold fetchCurrencyRate
    cases hv : isCacheValid s (some c)
    · simp [hv, hcr, hsr, cachedUsedFallback]
    · simp [hv, hcr, cachedUsedFallback]

/-- C3 witness inputs: same cache entry, clock far past both the entry and
the last user activity. -/
def idleEntry : CacheEntry := ⟨[("eur", (4/5 : ℚ))], 0, true⟩

def svcIdle : RateSvc := ⟨3600000, 300000, 2700000, 3000000, 0, 10000000⟩

/-- C3 witness: with the user inactive, the background paths fetch nothing
and the expired entry is served stale with zero fetches. -/
theorem inactivity_gate_witness :
    isUserActive svcIdle = false ∧
    shouldRefreshCache svcIdle (some idleEntry) = false ∧
    prefetchIfStaleFetches svcIdle (some idleEntry) = 0 ∧
    refreshCacheIfNeededFetches svcIdle [("eur", idleEntry)] = 0 ∧
    fetchCurrencyRate svcIdle (some idleEntry) (Except.error "primary down")
        (Except.error "fallback down") "eur" =
      (Except.ok ⟨4/5, true, true, true⟩, 0) := by
  have h := inactivity_gate svcIdle (by decide)
  exact ⟨by decide, h.1 idleEntry, h.2.1 (some idleEntry), h.2.2.1 [("eur", idleEntry)],
    h.2.2.2.2 idleEntry (Except.error "primary down") (Except.error "fallback down")
      "eur" (4/5) (by with_unfolding_all rfl)⟩

end UC
